import Mathlib

/-!
Verification of the timed, proctored assessment session of the
plantex frontend (component `TCSStyleTestInterface` and its persistence
hook).  The React component's state and handlers are shallowly embedded:
each `useState` field becomes a field of `SessionState`, each handler a
function on a `World` that also tracks the durable checkpoint, the
submission calls handed to the external collaborator, and the
user-facing failure alerts.
-/

namespace Plantex

/-- JS object maps `{ [id]: value }` are embedded as association lists.
`upsert` mirrors the spread update `{ ...prev, [k]: v }`: the binding for
`k` is replaced, every other binding is kept. -/
def upsert {β : Type} (m : List (String × β)) (k : String) (v : β) :
    List (String × β) :=
  (k, v) :: m.filter (fun p => p.1 ≠ k)

/-- Mirrors `delete obj[k]` on a JS object map. -/
def delKey {β : Type} (m : List (String × β)) (k : String) :
    List (String × β) :=
  m.filter (fun p => p.1 ≠ k)

/-- Truthiness of `m[k]` for a boolean-valued JS map: absent keys read
`undefined`, which is falsy. -/
def getB (m : List (String × Bool)) (k : String) : Bool :=
  (m.lookup k).getD false

/-- Truthiness of `m[k]` for a string-valued JS map: absent keys and the
empty string are falsy. -/
def truthyS (o : Option String) : Bool :=
  match o with
  | none => false
  | some a => a ≠ ""

/-- An MCQ question (`Question` interface): only the identity and marks
are relevant to the session state machine. -/
structure Question where
  qid : String
  marks : Nat
  deriving Repr, DecidableEq

/-- A section of MCQ questions (`Section` interface). -/
structure TestSection where
  sid : String
  questions : List Question
  deriving Repr, DecidableEq

/-- A coding question; `cid` embeds `_id` (empty string standing for a
falsy/absent `_id`) and `questionId` is the fallback used by
`cq._id || cq.questionId`. -/
structure CodingQuestion where
  cid : String
  questionId : String
  deriving Repr, DecidableEq

/-- The id the component selects for a coding question:
`cq._id || cq.questionId`. -/
def CodingQuestion.codeId (cq : CodingQuestion) : String :=
  if cq.cid = "" then cq.questionId else cq.cid

/-- The test definition handed to the interface (`Test` interface).
`duration` is in minutes, as in the source (`timeLeft = test.duration * 60`). -/
structure Test where
  hasSections : Bool
  sections : List TestSection
  questions : List Question
  hasCodingSection : Bool
  codingQuestions : List CodingQuestion
  duration : Nat
  deriving Repr, DecidableEq

/-- `test.hasCodingSection && test.codingQuestions && test.codingQuestions.length > 0`. -/
def Test.hasCoding (t : Test) : Prop :=
  t.hasCodingSection = true ∧ t.codingQuestions ≠ []

instance (t : Test) : Decidable t.hasCoding := by
  unfold Test.hasCoding; infer_instance

/-- One recorded coding submission `{ submissionId, score }`. -/
structure CodingSubmission where
  submissionId : String
  score : Int
  deriving Repr, DecidableEq

/-- One element of the answers array handed to `onSubmit`.  The
violation-path payload omits `timeSpent` (modelled as `none`); the
confirm/expiry path always sends `timeSpent: 0` (modelled `some 0`). -/
structure SubmitAnswer where
  questionId : String
  selectedAnswer : String
  timeSpent : Option Nat
  deriving Repr, DecidableEq

/-- The full payload of one `onSubmit` call. -/
structure SubmitPayload where
  answers : List SubmitAnswer
  timeSpent : Nat
  codingSubmissions : List CodingSubmission
  deriving Repr, DecidableEq

/-- The mutable component state: one field per `useState` hook of
`TCSStyleTestInterface`. -/
structure SessionState where
  showInstructions : Bool
  agreedToTerms : Bool
  currentSectionIndex : Nat
  currentQuestionIndex : Nat
  answers : List (String × String)
  markedForReview : List (String × Bool)
  visitedQuestions : List (String × Bool)
  timeLeft : Nat
  submitting : Bool
  showSectionComplete : Bool
  showSubmitConfirm : Bool
  showCodingSection : Bool
  mcqCompleted : Bool
  selectedCodingQuestionId : Option String
  codingSubmissions : List CodingSubmission
  violations : Nat
  deriving Repr, DecidableEq

/-- The persisted checkpoint record written on `beforeunload`
(`test_progress_<id>` in localStorage). -/
structure Checkpoint where
  answers : List (String × String)
  markedForReview : List (String × Bool)
  visitedQuestions : List (String × Bool)
  currentSectionIndex : Nat
  currentQuestionIndex : Nat
  violations : Nat
  timeLeft : Nat
  mcqCompleted : Bool
  selectedCodingQuestionId : Option String
  codingSubmissions : List CodingSubmission
  testStartTime : Nat
  deriving Repr, DecidableEq

/-- The component state together with its observable environment: the
durable checkpoint slot, whether `onExit` was called, the log of
`onSubmit` calls, and how many submit-failure alerts were shown. -/
structure World where
  state : SessionState
  checkpoint : Option Checkpoint
  exited : Bool
  submitted : List SubmitPayload
  submitFailAlerts : Nat
  deriving Repr, DecidableEq

/-- `getCurrentSection()`: the active section when the test has sections
and the index is in range, else `null`. -/
def getCurrentSection (t : Test) (s : SessionState) : Option TestSection :=
  if t.hasSections = true then t.sections.get? s.currentSectionIndex else none

/-- `getCurrentSectionQuestions()`: the active section's questions, or
the flat question list. -/
def getCurrentSectionQuestions (t : Test) (s : SessionState) : List Question :=
  match getCurrentSection t s with
  | some sec => sec.questions
  | none => t.questions

/-- `getCurrentQuestion()`. -/
def getCurrentQuestion (t : Test) (s : SessionState) : Option Question :=
  (getCurrentSectionQuestions t s).get? s.currentQuestionIndex

/-- `setSelectedCodingQuestionId(firstCoding._id || firstCoding.questionId)`
guarded by `if (firstCoding)`. -/
def selectFirstCoding (t : Test) (s : SessionState) : SessionState :=
  match t.codingQuestions.head? with
  | some cq => { s with selectedCodingQuestionId := some cq.codeId }
  | none => s

/-- `handleAnswerSelect`. -/
def handleAnswerSelect (qid ans : String) (s : SessionState) : SessionState :=
  { s with answers := upsert s.answers qid ans }

/-- `handleClearResponse`: removes the current question's answer and its
review mark (no-op when there is no current question). -/
def handleClearResponse (t : Test) (s : SessionState) : SessionState :=
  match getCurrentQuestion t s with
  | none => s
  | some q =>
      { s with answers := delKey s.answers q.qid,
               markedForReview := delKey s.markedForReview q.qid }

/-- `handleMarkForReview`: toggles the review flag of the current
question via `{ ...prev, [id]: !prev[id] }`. -/
def handleMarkForReview (t : Test) (s : SessionState) : SessionState :=
  match getCurrentQuestion t s with
  | none => s
  | some q =>
      { s with markedForReview :=
          upsert s.markedForReview q.qid (!(getB s.markedForReview q.qid)) }

/-- `handleSaveAndNext`: advance within the section (marking the next
question visited) or open the section-complete dialog at the last
question. -/
def handleSaveAndNext (t : Test) (s : SessionState) : SessionState :=
  let questions := getCurrentSectionQuestions t s
  if s.currentQuestionIndex < questions.length - 1 then
    match questions.get? (s.currentQuestionIndex + 1) with
    | some q =>
        { s with currentQuestionIndex := s.currentQuestionIndex + 1,
                 visitedQuestions := upsert s.visitedQuestions q.qid true }
    | none => s
  else
    { s with showSectionComplete := true }

/-- `handleMarkForReviewAndNext`. -/
def handleMarkForReviewAndNext (t : Test) (s : SessionState) : SessionState :=
  handleSaveAndNext t (handleMarkForReview t s)

/-- `handleNavigateToQuestion`: jump within the current section and mark
the target visited. -/
def handleNavigateToQuestion (t : Test) (idx : Nat) (s : SessionState) :
    SessionState :=
  match (getCurrentSectionQuestions t s).get? idx with
  | some q =>
      { s with currentQuestionIndex := idx,
               visitedQuestions := upsert s.visitedQuestions q.qid true }
  | none => s

/-- `handleNextSection`: advance to the next section's first question,
else enter the coding section, else open the submit dialog. -/
def handleNextSection (t : Test) (s : SessionState) : SessionState :=
  if t.hasSections = true ∧ s.currentSectionIndex < t.sections.length - 1 then
    match t.sections.get? (s.currentSectionIndex + 1) with
    | some sec =>
        let s1 := { s with currentSectionIndex := s.currentSectionIndex + 1,
                           currentQuestionIndex := 0,
                           showSectionComplete := false }
        match sec.questions.head? with
        | some q =>
            { s1 with visitedQuestions := upsert s1.visitedQuestions q.qid true }
        | none => s1
    | none => s
  else if t.hasCoding then
    selectFirstCoding t
      { s with mcqCompleted := true, showSectionComplete := false,
               showCodingSection := true }
  else
    { s with showSubmitConfirm := true }

/-- The MCQ header button: `Next Section (Coding)` / `Submit Test`. -/
def handleMcqHeaderSubmit (t : Test) (s : SessionState) : SessionState :=
  if t.hasCoding then
    selectFirstCoding t { s with mcqCompleted := true, showCodingSection := true }
  else
    { s with showSubmitConfirm := true }

/-- `handleStartTest`: requires the acceptance checkbox, leaves the
instructions screen, and either jumps straight to coding (no MCQ
questions) or replaces the visited map with just the first question. -/
def handleStartTest (t : Test) (s : SessionState) : SessionState :=
  if s.agreedToTerms = false then s
  else
    let s1 := { s with showInstructions := false }
    let questions := getCurrentSectionQuestions t s1
    if questions.isEmpty then
      if t.hasCoding then
        selectFirstCoding t { s1 with showCodingSection := true, mcqCompleted := true }
      else s1
    else
      match questions.head? with
      | some q => { s1 with visitedQuestions := [(q.qid, true)] }
      | none => s1

/-- `test.hasSections && test.sections ? sections.flatMap(s => s.questions) : test.questions`
as used by `handleSubmit`. -/
def allQuestions (t : Test) : List Question :=
  if t.hasSections = true then t.sections.flatMap TestSection.questions
  else t.questions

/-- The per-question answer array assembled by `handleSubmit`:
`{ questionId, selectedAnswer: answers[id] || '', timeSpent: 0 }` for
every question of the test. -/
def mcqSubmissionAnswers (t : Test) (s : SessionState) : List SubmitAnswer :=
  (allQuestions t).map fun q =>
    { questionId := q.qid,
      selectedAnswer := (s.answers.lookup q.qid).getD "",
      timeSpent := some 0 }

/-- The payload `handleSubmit` hands to `onSubmit`; `elapsedMs` is
`Date.now() - startTime.getTime()` and the time is floored to whole
minutes. -/
def mcqPayload (t : Test) (s : SessionState) (elapsedMs : Nat) : SubmitPayload :=
  { answers := mcqSubmissionAnswers t s,
    timeSpent := elapsedMs / 1000 / 60,
    codingSubmissions := s.codingSubmissions }

/-- `handleSubmit`: guarded by `submitting`; calls `onSubmit` with the
full answer array; on resolution clears the checkpoint, closes the
dialog and exits; on rejection alerts, clears the guard and closes the
dialog, leaving the checkpoint in place.  `ok` is whether the external
collaborator resolves. -/
def handleSubmit (elapsedMs : Nat) (ok : Bool) (t : Test) (w : World) : World :=
  if w.state.submitting = true then w
  else
    let payload := mcqPayload t w.state elapsedMs
    if ok then
      { w with
        state := { w.state with submitting := false, showSubmitConfirm := false },
        checkpoint := none,
        exited := true,
        submitted := w.submitted ++ [payload] }
    else
      { w with
        state := { w.state with submitting := false, showSubmitConfirm := false },
        submitted := w.submitted ++ [payload],
        submitFailAlerts := w.submitFailAlerts + 1 }

/-- `handleAutoSubmit` (clock-expiry handler), with a flag reporting
whether the forced MCQ-to-coding transition fired. -/
def handleAutoSubmitF (elapsedMs : Nat) (ok : Bool) (t : Test) (w : World) :
    World × Bool :=
  if w.state.submitting = true then (w, false)
  else if w.state.mcqCompleted = false ∧ t.hasCoding then
    let s1 := { w.state with mcqCompleted := true, showCodingSection := true }
    ({ w with state := selectFirstCoding t s1 }, true)
  else
    (handleSubmit elapsedMs ok t w, false)

/-- The violation-threshold effect body `autoSubmitTest`: with a coding
section it forces the transition into coding; otherwise it submits
`Object.entries(answers)` (answered questions only, no `timeSpent`
field) with the elapsed time floored to whole seconds. -/
def autoSubmitTestF (elapsedMs : Nat) (ok : Bool) (t : Test) (w : World) :
    World × Bool :=
  let s := { w.state with submitting := true }
  if t.hasCoding then
    let s1 := { s with mcqCompleted := true, showCodingSection := true,
                       submitting := false }
    ({ w with state := selectFirstCoding t s1 }, true)
  else
    let payload : SubmitPayload :=
      { answers := s.answers.map fun p =>
          { questionId := p.1, selectedAnswer := p.2, timeSpent := none },
        timeSpent := elapsedMs / 1000,
        codingSubmissions := s.codingSubmissions }
    if ok then
      ({ w with state := { s with submitting := false },
                checkpoint := none,
                exited := true,
                submitted := w.submitted ++ [payload] }, false)
    else
      ({ w with state := { s with submitting := false },
                submitted := w.submitted ++ [payload] }, false)

/-- The guard of the violation effect:
`violations >= 3 && !showInstructions && !submitting && !mcqCompleted`. -/
def violationGuard (s : SessionState) : Prop :=
  3 ≤ s.violations ∧ s.showInstructions = false ∧ s.submitting = false ∧
    s.mcqCompleted = false

instance (s : SessionState) : Decidable (violationGuard s) := by
  unfold violationGuard; infer_instance

/-- One `visibilitychange`-to-hidden event: while the listener is armed
(not on the instructions screen) the count is incremented and the
violation effect re-runs with the new count. -/
def violationEventF (elapsedMs : Nat) (ok : Bool) (t : Test) (w : World) :
    World × Bool :=
  if w.state.showInstructions = true then (w, false)
  else
    let w1 := { w with state := { w.state with violations := w.state.violations + 1 } }
    if violationGuard w1.state then autoSubmitTestF elapsedMs ok t w1
    else (w1, false)

/-- A re-run of the violation effect without a new hide event (its
dependency array makes it re-fire on unrelated state changes). -/
def violationRecheckF (elapsedMs : Nat) (ok : Bool) (t : Test) (w : World) :
    World × Bool :=
  if violationGuard w.state then autoSubmitTestF elapsedMs ok t w
  else (w, false)

/-- Result of one interval tick of the session clock. -/
structure TickResult where
  world : World
  expired : Bool
  forced : Bool
  deriving Repr, DecidableEq

/-- One tick of the one-second interval: installed only after the
instructions screen; `prev <= 1` invokes `handleAutoSubmit()` and pins
the remaining time at `0`; otherwise the time decrements by one.  The
interval itself is never cleared by reaching zero. -/
def timerTick (elapsedMs : Nat) (ok : Bool) (t : Test) (w : World) : TickResult :=
  if w.state.showInstructions = true then ⟨w, false, false⟩
  else if w.state.timeLeft ≤ 1 then
    let r := handleAutoSubmitF elapsedMs ok t w
    ⟨{ r.1 with state := { r.1.state with timeLeft := 0 } }, true, r.2⟩
  else
    ⟨{ w with state := { w.state with timeLeft := w.state.timeLeft - 1 } },
      false, false⟩

/-- The checkpoint written by `handleBeforeUnload`. -/
def saveCheckpoint (startTimeMs : Nat) (s : SessionState) : Checkpoint :=
  { answers := s.answers,
    markedForReview := s.markedForReview,
    visitedQuestions := s.visitedQuestions,
    currentSectionIndex := s.currentSectionIndex,
    currentQuestionIndex := s.currentQuestionIndex,
    violations := s.violations,
    timeLeft := s.timeLeft,
    mcqCompleted := s.mcqCompleted,
    selectedCodingQuestionId := s.selectedCodingQuestionId,
    codingSubmissions := s.codingSubmissions,
    testStartTime := startTimeMs }

/-- `handleBeforeUnload`: persists the checkpoint while the session is
active and not submitting. -/
def handleBeforeUnload (startTimeMs : Nat) (w : World) : World :=
  if w.state.showInstructions = false ∧ w.state.submitting = false then
    { w with checkpoint := some (saveCheckpoint startTimeMs w.state) }
  else w

/-- `x || null` on the restored nullable coding-question id: an empty
string is falsy and collapses to `null`. -/
def jsOrNull (o : Option String) : Option String :=
  match o with
  | some v => if v = "" then none else some v
  | none => none

/-- The restore-progress effect body: field-by-field `set*` calls with
the `|| default` fallbacks of the source.  Only these eight fields are
written; `timeLeft` and `codingSubmissions` are left untouched. -/
def restoreProgress (cp : Checkpoint) (s : SessionState) : SessionState :=
  { s with
    answers := cp.answers,
    markedForReview := cp.markedForReview,
    visitedQuestions := cp.visitedQuestions,
    currentSectionIndex := cp.currentSectionIndex,
    currentQuestionIndex := cp.currentQuestionIndex,
    violations := cp.violations,
    mcqCompleted := cp.mcqCompleted,
    selectedCodingQuestionId := jsOrNull cp.selectedCodingQuestionId }

/-- The mount-time restore effect: only runs while the instructions
screen is showing and a saved record exists. -/
def restoreEffect (w : World) : World :=
  if w.state.showInstructions = true then
    match w.checkpoint with
    | some cp => { w with state := restoreProgress cp w.state }
    | none => w
  else w

/-- The initial component state for a test. -/
def initialState (t : Test) : SessionState :=
  { showInstructions := true,
    agreedToTerms := false,
    currentSectionIndex := 0,
    currentQuestionIndex := 0,
    answers := [],
    markedForReview := [],
    visitedQuestions := [],
    timeLeft := t.duration * 60,
    submitting := false,
    showSectionComplete := false,
    showSubmitConfirm := false,
    showCodingSection := false,
    mcqCompleted := false,
    selectedCodingQuestionId := none,
    codingSubmissions := [],
    violations := 0 }

/-- The initial world at mount, with whatever checkpoint localStorage
holds for this test. -/
def initWorld (t : Test) (cp : Option Checkpoint) : World :=
  { state := initialState t,
    checkpoint := cp,
    exited := false,
    submitted := [],
    submitFailAlerts := 0 }

/-- The four palette counters computed by `getSectionCounts()`. -/
structure SectionCounts where
  answered : Nat
  notAnswered : Nat
  marked : Nat
  notVisited : Nat
  deriving Repr, DecidableEq

/-- `getSectionCounts()`, verbatim from the four filters of the source. -/
def getSectionCounts (t : Test) (s : SessionState) : SectionCounts :=
  let questions := getCurrentSectionQuestions t s
  { answered := (questions.filter fun q =>
      truthyS (s.answers.lookup q.qid) && !(getB s.markedForReview q.qid)).length,
    notAnswered := (questions.filter fun q =>
      !(truthyS (s.answers.lookup q.qid)) && getB s.visitedQuestions q.qid).length,
    marked := (questions.filter fun q => getB s.markedForReview q.qid).length,
    notVisited := (questions.filter fun q =>
      !(getB s.visitedQuestions q.qid)).length }

/-- The events the interface reacts to: user actions (guarded by which
view is rendered), the clock tick, the visibility signal, the unload
signal, and the mount-time restore. -/
inductive Op where
  | setAgree (b : Bool)
  | start
  | select (ans : String)
  | clear
  | reviewAndNext
  | saveNext
  | navigate (idx : Nat)
  | reviewAnswers
  | nextSection
  | headerSubmit
  | codingSelect (cid : String)
  | codingSubmitBtn
  | codingRecord (sid : String) (score : Int)
  | cancelSubmit
  | confirmSubmit (elapsedMs : Nat) (ok : Bool)
  | tick (elapsedMs : Nat) (ok : Bool)
  | hide (elapsedMs : Nat) (ok : Bool)
  | violRecheck (elapsedMs : Nat) (ok : Bool)
  | unload (startMs : Nat)
  | restore
  deriving Repr, DecidableEq

/-- The instructions screen is showing. -/
def instructionsView (s : SessionState) : Prop := s.showInstructions = true

/-- The MCQ test view is rendered (not instructions, not coding). -/
def mcqView (s : SessionState) : Prop :=
  s.showInstructions = false ∧ s.showCodingSection = false

/-- The coding-section view is rendered. -/
def codingView (s : SessionState) : Prop :=
  s.showInstructions = false ∧ s.showCodingSection = true

instance (s : SessionState) : Decidable (instructionsView s) := by
  unfold instructionsView; infer_instance

instance (s : SessionState) : Decidable (mcqView s) := by
  unfold mcqView; infer_instance

instance (s : SessionState) : Decidable (codingView s) := by
  unfold codingView; infer_instance

/-- Lift a pure state update to a world update. -/
def onState (f : SessionState → SessionState) (w : World) : World :=
  { w with state := f w.state }

/-- One reaction step, together with a flag reporting whether this step
performed the forced MCQ-to-coding transition. -/
def stepF (t : Test) (o : Op) (w : World) : World × Bool :=
  match o with
  | .setAgree b =>
      (if instructionsView w.state then
        onState (fun s => { s with agreedToTerms := b }) w
       else w, false)
  | .start =>
      (if instructionsView w.state then onState (handleStartTest t) w else w, false)
  | .select ans =>
      (if mcqView w.state then
        match getCurrentQuestion t w.state with
        | some q => onState (handleAnswerSelect q.qid ans) w
        | none => w
       else w, false)
  | .clear =>
      (if mcqView w.state ∧
          truthyS ((w.state.answers).lookup
            (((getCurrentQuestion t w.state).map Question.qid).getD "")) = true then
        onState (handleClearResponse t) w
       else w, false)
  | .reviewAndNext =>
      (if mcqView w.state ∧ (getCurrentQuestion t w.state).isSome = true then
        onState (handleMarkForReviewAndNext t) w
       else w, false)
  | .saveNext =>
      (if mcqView w.state ∧ (getCurrentQuestion t w.state).isSome = true then
        onState (handleSaveAndNext t) w
       else w, false)
  | .navigate idx =>
      (if mcqView w.state ∧ (getCurrentQuestion t w.state).isSome = true then
        onState (handleNavigateToQuestion t idx) w
       else w, false)
  | .reviewAnswers =>
      (if mcqView w.state ∧ w.state.showSectionComplete = true then
        onState (fun s => { s with showSectionComplete := false }) w
       else w, false)
  | .nextSection =>
      (if mcqView w.state ∧ w.state.showSectionComplete = true then
        onState (handleNextSection t) w
       else w, false)
  | .headerSubmit =>
      (if mcqView w.state ∧ (getCurrentQuestion t w.state).isSome = true then
        onState (handleMcqHeaderSubmit t) w
       else w, false)
  | .codingSelect cid =>
      (if codingView w.state ∧ cid ∈ t.codingQuestions.map CodingQuestion.codeId then
        onState (fun s => { s with selectedCodingQuestionId := some cid }) w
       else w, false)
  | .codingSubmitBtn =>
      (if codingView w.state then
        onState (fun s => { s with showSubmitConfirm := true }) w
       else w, false)
  | .codingRecord sid score =>
      (if codingView w.state ∧ w.state.selectedCodingQuestionId.isSome = true then
        onState (fun s =>
          { s with codingSubmissions := s.codingSubmissions ++ [⟨sid, score⟩] }) w
       else w, false)
  | .cancelSubmit =>
      (if mcqView w.state ∧ w.state.showSubmitConfirm = true ∧
          w.state.submitting = false then
        onState (fun s => { s with showSubmitConfirm := false }) w
       else w, false)
  | .confirmSubmit e ok =>
      (if mcqView w.state ∧ w.state.showSubmitConfirm = true ∧
          w.state.submitting = false then
        handleSubmit e ok t w
       else w, false)
  | .tick e ok =>
      let r := timerTick e ok t w
      (r.world, r.forced)
  | .hide e ok => violationEventF e ok t w
  | .violRecheck e ok => violationRecheckF e ok t w
  | .unload startMs => (handleBeforeUnload startMs w, false)
  | .restore => (restoreEffect w, false)

/-- One reaction step. -/
def step (t : Test) (o : Op) (w : World) : World :=
  (stepF t o w).1

/-- Run a sequence of events. -/
def run (t : Test) (ops : List Op) (w : World) : World :=
  match ops with
  | [] => w
  | o :: os => run t os (step t o w)

/-- How many steps of a trace performed the forced MCQ-to-coding
transition. -/
def forcedCount (t : Test) (ops : List Op) (w : World) : Nat :=
  match ops with
  | [] => 0
  | o :: os =>
      (if (stepF t o w).2 then 1 else 0) + forcedCount t os (stepF t o w).1

/-! ### Concrete fixtures used by witnesses and counterexamples -/

/-- A flat two-question test without a coding section. -/
def tFlat : Test :=
  { hasSections := false,
    sections := [],
    questions := [⟨"q1", 1⟩, ⟨"q2", 1⟩],
    hasCodingSection := false,
    codingQuestions := [],
    duration := 2 }

/-- A flat one-question test with one coding question. -/
def tCode : Test :=
  { hasSections := false,
    sections := [],
    questions := [⟨"m1", 1⟩],
    hasCodingSection := true,
    codingQuestions := [⟨"c1", "cq1"⟩],
    duration := 1 }

/-- A checkpoint whose answers mention a question that the restore-then-
start bootstrap will drop from the visited set. -/
def cpEx : Checkpoint :=
  { answers := [("q2", "A")],
    markedForReview := [],
    visitedQuestions := [("q1", true), ("q2", true)],
    currentSectionIndex := 0,
    currentQuestionIndex := 0,
    violations := 0,
    timeLeft := 70,
    mcqCompleted := false,
    selectedCodingQuestionId := none,
    codingSubmissions := [],
    testStartTime := 0 }

/-! ### C10: restoration touches only the eight restored fields -/

/-- C10.  Restoring a checkpoint rewrites only `answers`,
`markedForReview`, `visitedQuestions`, the two position indices,
`violations`, `mcqCompleted` and `selectedCodingQuestionId`; every other
field is untouched, so at mount the remaining time stays at
`test.duration * 60` and `codingSubmissions` stays empty regardless of
the `timeLeft` and `codingSubmissions` stored in the checkpoint. -/
theorem restore_frame (t : Test) (cp : Checkpoint) (s : SessionState) :
    (restoreProgress cp s).timeLeft = s.timeLeft ∧
    (restoreProgress cp s).codingSubmissions = s.codingSubmissions ∧
    (restoreProgress cp s).showInstructions = s.showInstructions ∧
    (restoreProgress cp s).agreedToTerms = s.agreedToTerms ∧
    (restoreProgress cp s).submitting = s.submitting ∧
    (restoreProgress cp s).showSectionComplete = s.showSectionComplete ∧
    (restoreProgress cp s).showSubmitConfirm = s.showSubmitConfirm ∧
    (restoreProgress cp s).showCodingSection = s.showCodingSection ∧
    (restoreEffect (initWorld t (some cp))).state.timeLeft = t.duration * 60 ∧
    (restoreEffect (initWorld t (some cp))).state.codingSubmissions = [] := by
  refine ⟨rfl, rfl, rfl, rfl, rfl, rfl, rfl, rfl, ?_, ?_⟩ <;>
    simp [restoreEffect, initWorld, initialState, restoreProgress]

/-! ### C7: checkpoint round-trip -/

/-- C7.  Saving a checkpoint and loading it back (onto any base state,
before any further mutation) reproduces the eight restored fields
exactly; the only caveat is the `|| null` coercion, which requires the
selected coding id not to be the (never occurring in practice) empty
string. -/
theorem checkpoint_roundtrip (startMs : Nat) (s s0 : SessionState)
    (h : s.selectedCodingQuestionId ≠ some "") :
    (restoreProgress (saveCheckpoint startMs s) s0).answers = s.answers ∧
    (restoreProgress (saveCheckpoint startMs s) s0).markedForReview =
      s.markedForReview ∧
    (restoreProgress (saveCheckpoint startMs s) s0).visitedQuestions =
      s.visitedQuestions ∧
    (restoreProgress (saveCheckpoint startMs s) s0).currentSectionIndex =
      s.currentSectionIndex ∧
    (restoreProgress (saveCheckpoint startMs s) s0).currentQuestionIndex =
      s.currentQuestionIndex ∧
    (restoreProgress (saveCheckpoint startMs s) s0).violations = s.violations ∧
    (restoreProgress (saveCheckpoint startMs s) s0).mcqCompleted =
      s.mcqCompleted ∧
    (restoreProgress (saveCheckpoint startMs s) s0).selectedCodingQuestionId =
      s.selectedCodingQuestionId := by
  refine ⟨rfl, rfl, rfl, rfl, rfl, rfl, rfl, ?_⟩
  show jsOrNull s.selectedCodingQuestionId = s.selectedCodingQuestionId
  match hz : s.selectedCodingQuestionId with
  | none => rfl
  | some v =>
      have hv : v ≠ "" := by
        intro hv
        exact h (by rw [hz, hv])
      simp [jsOrNull, hv]

/-- Witness for C7 at a concrete state. -/
theorem checkpoint_roundtrip_witness :
    (initialState tCode).selectedCodingQuestionId ≠ some "" ∧
    (restoreProgress (saveCheckpoint 5 (initialState tCode))
        (initialState tFlat)).answers = (initialState tCode).answers :=
  ⟨by decide, (checkpoint_roundtrip 5 (initialState tCode) (initialState tFlat)
      (by decide)).1⟩

/-- A mid-session world on `tFlat`: one answer recorded, two violations
already counted, the submit dialog open, a checkpoint persisted. -/
def wActive : World :=
  { state := { initialState tFlat with
      showInstructions := false,
      answers := [("q1", "A")],
      visitedQuestions := [("q1", true)],
      violations := 2,
      showSubmitConfirm := true },
    checkpoint := some cpEx,
    exited := false,
    submitted := [],
    submitFailAlerts := 0 }

/-! ### C1: what the final submission hands to the collaborator -/

/-- C1 counterexample.  A third tab-hide on `tFlat` (no coding section)
forces an auto-submit whose only call carries just the answered question
`q1` — not every question of the test — and the elapsed time floored to
whole seconds (120), where the claim demands the full id list
`["q1", "q2"]` and whole minutes (2). -/
theorem final_submission_counterexample :
    ((step tFlat (Op.hide 120000 true) wActive).submitted.map
        (fun p => (p.answers.map SubmitAnswer.questionId, p.timeSpent)) =
      [(["q1"], 120)]) ∧
    ¬(["q1"] = (allQuestions tFlat).map Question.qid ∧
        (120 : Nat) = 120000 / 1000 / 60) := by
  decide

/-- C1 amended.  `handleSubmit` (the path behind `confirmSubmit` and the
clock-expiry auto-submit) hands the collaborator one call whose answer
array covers every question of the test, with `""` for any unanswered
question, and the elapsed time in whole minutes; but the
violation-triggered auto-submit without a coding section hands only the
already-answered entries and the elapsed time in whole seconds. -/
theorem final_submission_amended (t : Test) (w : World) (e : Nat) (ok : Bool)
    (hsub : w.state.submitting = false) :
    (handleSubmit e ok t w).submitted = w.submitted ++ [mcqPayload t w.state e] ∧
    (mcqPayload t w.state e).answers.map SubmitAnswer.questionId =
      (allQuestions t).map Question.qid ∧
    (∀ q ∈ allQuestions t, w.state.answers.lookup q.qid = none →
        (⟨q.qid, "", some 0⟩ : SubmitAnswer) ∈ (mcqPayload t w.state e).answers) ∧
    (mcqPayload t w.state e).timeSpent = e / 1000 / 60 ∧
    (mcqPayload t w.state e).codingSubmissions = w.state.codingSubmissions ∧
    (¬t.hasCoding →
      (autoSubmitTestF e ok t w).1.submitted = w.submitted ++
        [{ answers := w.state.answers.map fun p => ⟨p.1, p.2, none⟩,
           timeSpent := e / 1000,
           codingSubmissions := w.state.codingSubmissions }]) := by
  refine ⟨?_, ?_, ?_, rfl, rfl, ?_⟩
  · cases ok <;> simp [handleSubmit, hsub]
  · simp [mcqPayload, mcqSubmissionAnswers]
  · intro q hq hnone
    simp only [mcqPayload, mcqSubmissionAnswers, List.mem_map]
    exact ⟨q, hq, by simp [hnone]⟩
  · intro hnc
    cases ok <;> simp [autoSubmitTestF, if_neg hnc]

/-- Witness for C1's amended theorem at a concrete world. -/
theorem final_submission_amended_witness :
    wActive.state.submitting = false ∧
    (mcqPayload tFlat wActive.state 120000).timeSpent = 120000 / 1000 / 60 :=
  ⟨by decide,
    (final_submission_amended tFlat wActive 120000 true (by decide)).2.2.2.1⟩

/-! ### C6: behaviour when the submission collaborator rejects -/

/-- C6 counterexample.  When the handoff rejects, the source runs
`setShowSubmitConfirm(false)`: the confirmation dialog is closed, not
left open as the claim states. -/
theorem submit_failure_counterexample :
    wActive.state.showSubmitConfirm = true ∧
    (handleSubmit 60000 false tFlat wActive).state.showSubmitConfirm = false := by
  decide

/-- C6 amended.  On submission failure the guard is cleared (retry
possible), the user is notified, the checkpoint is not cleared, `onExit`
is not called and the pre-submit session data is untouched — but the
confirmation dialog is closed rather than kept open. -/
theorem submit_failure_amended (t : Test) (w : World) (e : Nat)
    (hsub : w.state.submitting = false) :
    (handleSubmit e false t w).state.submitting = false ∧
    (handleSubmit e false t w).state.showSubmitConfirm = false ∧
    (handleSubmit e false t w).checkpoint = w.checkpoint ∧
    (handleSubmit e false t w).submitFailAlerts = w.submitFailAlerts + 1 ∧
    (handleSubmit e false t w).exited = w.exited ∧
    (handleSubmit e false t w).state.answers = w.state.answers ∧
    (handleSubmit e false t w).state.codingSubmissions =
      w.state.codingSubmissions ∧
    (handleSubmit e false t w).state.mcqCompleted = w.state.mcqCompleted ∧
    (handleSubmit e false t w).state.showCodingSection =
      w.state.showCodingSection := by
  simp [handleSubmit, hsub]

/-- Witness for C6's amended theorem at a concrete world. -/
theorem submit_failure_amended_witness :
    wActive.state.submitting = false ∧
    (handleSubmit 60000 false tFlat wActive).checkpoint = wActive.checkpoint :=
  ⟨by decide, (submit_failure_amended tFlat wActive 60000 (by decide)).2.2.1⟩

/-- A mid-MCQ world on `tCode` with the clock about to expire and two
violations already counted. -/
def wCode : World :=
  { state := { initialState tCode with
      showInstructions := false,
      visitedQuestions := [("m1", true)],
      timeLeft := 1,
      violations := 2 },
    checkpoint := none,
    exited := false,
    submitted := [],
    submitFailAlerts := 0 }

/-! ### C2: clock expiry / third violation jump into the coding phase -/

/-- C2.  While `mcqCompleted` is false, the test has a coding section
with at least one coding question, and no submission is pending, both
the clock-expiry tick and the violation count reaching 3 set
`mcqCompleted`, enter the coding view with the first coding question
selected, and make no call to the submission collaborator. -/
theorem forced_transition_to_coding (t : Test) (w : World) (e : Nat) (ok : Bool)
    (cq : CodingQuestion) (rest : List CodingQuestion)
    (hcs : t.hasCodingSection = true) (hcq : t.codingQuestions = cq :: rest)
    (hmcq : w.state.mcqCompleted = false) (hsub : w.state.submitting = false)
    (hsi : w.state.showInstructions = false) :
    (w.state.timeLeft ≤ 1 →
      (timerTick e ok t w).world.state.mcqCompleted = true ∧
      (timerTick e ok t w).world.state.showCodingSection = true ∧
      (timerTick e ok t w).world.state.selectedCodingQuestionId =
        some cq.codeId ∧
      (timerTick e ok t w).world.submitted = w.submitted) ∧
    (w.state.violations = 2 →
      (violationEventF e ok t w).1.state.mcqCompleted = true ∧
      (violationEventF e ok t w).1.state.showCodingSection = true ∧
      (violationEventF e ok t w).1.state.selectedCodingQuestionId =
        some cq.codeId ∧
      (violationEventF e ok t w).1.submitted = w.submitted) := by
  have hco : t.hasCoding := ⟨hcs, by simp [hcq]⟩
  constructor
  · intro hle
    simp [timerTick, hsi, hle, handleAutoSubmitF, hsub, hmcq, hco,
      selectFirstCoding, hcq]
  · intro hv
    simp [violationEventF, hsi, violationGuard, hv, hsub, hmcq,
      autoSubmitTestF, hco, selectFirstCoding, hcq]

/-- Witness for C2 at a concrete world on `tCode`. -/
theorem forced_transition_to_coding_witness :
    wCode.state.mcqCompleted = false ∧ wCode.state.timeLeft ≤ 1 ∧
    (timerTick 7 true tCode wCode).world.state.showCodingSection = true ∧
    (violationEventF 7 true tCode wCode).1.submitted = wCode.submitted := by
  have h := forced_transition_to_coding tCode wCode 7 true ⟨"c1", "cq1"⟩ []
    rfl rfl rfl rfl rfl
  exact ⟨rfl, by decide, (h.1 (by decide)).2.1, (h.2 rfl).2.2.2⟩

/-! ### C4: the four section counters -/

/-- The combinatorial core of the counter identity: for any three
boolean attributes, the four filters of `getSectionCounts` overcount the
list by the marked-but-unanswered and the answered-but-unvisited
elements. -/
theorem filter_counts_sum (l : List Question) (a m v : Question → Bool) :
    (l.filter fun q => a q && !(m q)).length +
      (l.filter fun q => !(a q) && v q).length +
      (l.filter fun q => m q).length +
      (l.filter fun q => !(v q)).length =
    l.length + (l.countP fun q => m q && !(a q)) +
      (l.countP fun q => a q && !(v q)) := by
  induction l with
  | nil => simp
  | cons x xs ih =>
      simp only [List.filter_cons, List.countP_cons, List.length_cons]
      cases ha : a x <;> cases hm : m x <;> cases hv : v x <;>
        simp [ha, hm, hv] <;> omega

/-- C4 counterexample.  Reachable with a single review-mark on a visited
unanswered question: the four counters of `getSectionCounts` sum to 3 on
a 2-question section, so they are not a partition. -/
theorem section_counts_counterexample :
    ((getSectionCounts tFlat
        (run tFlat [Op.setAgree true, Op.start, Op.reviewAndNext]
          (initWorld tFlat none)).state).answered +
      (getSectionCounts tFlat
        (run tFlat [Op.setAgree true, Op.start, Op.reviewAndNext]
          (initWorld tFlat none)).state).notAnswered +
      (getSectionCounts tFlat
        (run tFlat [Op.setAgree true, Op.start, Op.reviewAndNext]
          (initWorld tFlat none)).state).marked +
      (getSectionCounts tFlat
        (run tFlat [Op.setAgree true, Op.start, Op.reviewAndNext]
          (initWorld tFlat none)).state).notVisited = 3) ∧
    (getCurrentSectionQuestions tFlat
        (run tFlat [Op.setAgree true, Op.start, Op.reviewAndNext]
          (initWorld tFlat none)).state).length = 2 ∧
    ¬(3 = 2) := by
  decide

/-- C4 amended.  The four counters are not mutually exclusive: a marked
unanswered question is counted both as `notAnswered` and `marked`, and
an answered unvisited one both as `answered` and `notVisited`.  For
every state their sum equals the section's question count plus those two
overlaps (so they partition exactly when no marked question is
unanswered and no answered question is unvisited). -/
theorem section_counts_amended (t : Test) (s : SessionState) :
    (getSectionCounts t s).answered + (getSectionCounts t s).notAnswered +
      (getSectionCounts t s).marked + (getSectionCounts t s).notVisited =
    (getCurrentSectionQuestions t s).length +
      ((getCurrentSectionQuestions t s).countP fun q =>
        getB s.markedForReview q.qid && !(truthyS (s.answers.lookup q.qid))) +
      ((getCurrentSectionQuestions t s).countP fun q =>
        truthyS (s.answers.lookup q.qid) && !(getB s.visitedQuestions q.qid)) := by
  simpa [getSectionCounts] using
    filter_counts_sum (getCurrentSectionQuestions t s)
      (fun q => truthyS (s.answers.lookup q.qid))
      (fun q => getB s.markedForReview q.qid)
      (fun q => getB s.visitedQuestions q.qid)

/-! ### C8: behaviour of the session clock at and after expiry -/

/-- `handleSubmit` never changes `showInstructions`. -/
theorem handleSubmit_showInstructions (e : Nat) (ok : Bool) (t : Test)
    (w : World) :
    (handleSubmit e ok t w).state.showInstructions = w.state.showInstructions := by
  unfold handleSubmit
  repeat' split <;> simp

/-- The expiry handler never changes `showInstructions`. -/
theorem handleAutoSubmitF_showInstructions (e : Nat) (ok : Bool) (t : Test)
    (w : World) :
    (handleAutoSubmitF e ok t w).1.state.showInstructions =
      w.state.showInstructions := by
  unfold handleAutoSubmitF selectFirstCoding
  repeat' split <;> simp [handleSubmit_showInstructions]

/-- A tick on a running clock with at most one second left always
invokes the expiry handler. -/
theorem timerTick_expires (e : Nat) (ok : Bool) (t : Test) (w : World)
    (hsi : w.state.showInstructions = false) (hle : w.state.timeLeft ≤ 1) :
    (timerTick e ok t w).expired = true := by
  simp [timerTick, hsi, hle]

/-- C8 counterexample.  With one second left on `tCode`, the tick
invokes the expiry handler — and so does the next tick: the interval is
not cleared at zero, so the handler does not fire exactly once (here the
second invocation even auto-submits the test one tick after the forced
jump into coding). -/
theorem clock_expiry_counterexample :
    (timerTick 7 true tCode wCode).expired = true ∧
    (timerTick 7 true tCode (timerTick 7 true tCode wCode).world).expired =
      true ∧
    ¬((timerTick 7 true tCode (timerTick 7 true tCode wCode).world).expired =
      false) ∧
    (timerTick 7 true tCode
      (timerTick 7 true tCode wCode).world).world.submitted.length = 1 := by
  decide

/-- C8 amended.  While the clock is running, a tick with more than one
second left decrements the remaining time by one and changes nothing
else; a tick with at most one second left pins the remaining time at 0
and invokes the expiry handler — but the interval is not stopped, so the
immediately following tick invokes the expiry handler again (re-entry
into submission being blocked only by the `submitting`/`mcqCompleted`
guards). -/
theorem clock_tick_amended (t : Test) (w : World) (e : Nat) (ok : Bool)
    (hsi : w.state.showInstructions = false) :
    (1 < w.state.timeLeft →
      (timerTick e ok t w).world =
        { w with state := { w.state with timeLeft := w.state.timeLeft - 1 } } ∧
      (timerTick e ok t w).expired = false) ∧
    (w.state.timeLeft ≤ 1 →
      (timerTick e ok t w).world.state.timeLeft = 0 ∧
      (timerTick e ok t w).expired = true ∧
      (timerTick e ok t (timerTick e ok t w).world).expired = true) := by
  constructor
  · intro hgt
    have hne : ¬w.state.timeLeft ≤ 1 := by omega
    simp [timerTick, hsi, hne]
  · intro hle
    have hsi2 : (timerTick e ok t w).world.state.showInstructions = false := by
      simp [timerTick, hsi, hle, handleAutoSubmitF_showInstructions]
    have hz : (timerTick e ok t w).world.state.timeLeft = 0 := by
      simp [timerTick, hsi, hle]
    exact ⟨hz, timerTick_expires e ok t w hsi hle,
      timerTick_expires e ok t _ hsi2 (by omega)⟩

/-- Witness for C8's amended theorem at a concrete world. -/
theorem clock_tick_amended_witness :
    wCode.state.showInstructions = false ∧ wCode.state.timeLeft ≤ 1 ∧
    (timerTick 7 true tCode wCode).world.state.timeLeft = 0 :=
  ⟨rfl, by decide, ((clock_tick_amended tCode wCode 7 true rfl).2 (by decide)).1⟩

/-! ### C3: the forced MCQ-to-coding transition fires at most once -/

/-- `selectFirstCoding` touches only the selected coding id. -/
theorem flags_selectFirstCoding (t : Test) (s : SessionState) :
    (selectFirstCoding t s).mcqCompleted = s.mcqCompleted ∧
    (selectFirstCoding t s).showInstructions = s.showInstructions := by
  unfold selectFirstCoding
  split <;> simp

/-- `handleSubmit` never changes `mcqCompleted` or `showInstructions`. -/
theorem handleSubmit_flags (e : Nat) (ok : Bool) (t : Test) (w : World) :
    (handleSubmit e ok t w).state.mcqCompleted = w.state.mcqCompleted ∧
    (handleSubmit e ok t w).state.showInstructions =
      w.state.showInstructions := by
  unfold handleSubmit
  repeat' split <;> try simp_all

/-- Once `mcqCompleted` holds, the expiry handler no longer takes the
forced branch: the flag stays set and no forced transition is reported. -/
theorem handleAutoSubmitF_done (e : Nat) (ok : Bool) (t : Test) (w : World)
    (h1 : w.state.mcqCompleted = true) :
    (handleAutoSubmitF e ok t w).1.state.mcqCompleted = true ∧
    (handleAutoSubmitF e ok t w).1.state.showInstructions =
      w.state.showInstructions ∧
    (handleAutoSubmitF e ok t w).2 = false := by
  unfold handleAutoSubmitF
  split
  · simp [h1]
  · split
    · simp_all
    · simp [(handleSubmit_flags e ok t w).1, (handleSubmit_flags e ok t w).2, h1]

/-- When the expiry handler reports a forced transition, it has set
`mcqCompleted` and left `showInstructions` alone. -/
theorem handleAutoSubmitF_fired (e : Nat) (ok : Bool) (t : Test) (w : World)
    (h : (handleAutoSubmitF e ok t w).2 = true) :
    (handleAutoSubmitF e ok t w).1.state.mcqCompleted = true ∧
    (handleAutoSubmitF e ok t w).1.state.showInstructions =
      w.state.showInstructions := by
  revert h
  unfold handleAutoSubmitF
  split
  · simp
  · split
    · intro _
      constructor
      · simpa using (flags_selectFirstCoding t _).1
      · simpa using (flags_selectFirstCoding t _).2
    · simp

/-- Same two facts for the violation-effect body. -/
theorem autoSubmitTestF_fired (e : Nat) (ok : Bool) (t : Test) (w : World)
    (h : (autoSubmitTestF e ok t w).2 = true) :
    (autoSubmitTestF e ok t w).1.state.mcqCompleted = true ∧
    (autoSubmitTestF e ok t w).1.state.showInstructions =
      w.state.showInstructions := by
  revert h
  unfold autoSubmitTestF
  split
  · intro _
    constructor
    · simpa using (flags_selectFirstCoding t _).1
    · simpa using (flags_selectFirstCoding t _).2
  · split <;> simp

/-- `handleNextSection` keeps `mcqCompleted` set and leaves
`showInstructions` alone. -/
theorem done_handleNextSection (t : Test) (s : SessionState)
    (h : s.mcqCompleted = true) :
    (handleNextSection t s).mcqCompleted = true ∧
    (handleNextSection t s).showInstructions = s.showInstructions := by
  simp only [handleNextSection, selectFirstCoding]
  repeat' split <;> try simp_all

/-- Like `done_handleNextSection` for the MCQ header button. -/
theorem done_handleMcqHeaderSubmit (t : Test) (s : SessionState)
    (h : s.mcqCompleted = true) :
    (handleMcqHeaderSubmit t s).mcqCompleted = true ∧
    (handleMcqHeaderSubmit t s).showInstructions = s.showInstructions := by
  simp only [handleMcqHeaderSubmit, selectFirstCoding]
  repeat' split <;> try simp_all

/-- Pure navigation and answer bookkeeping touches neither flag. -/
theorem flags_handleSaveAndNext (t : Test) (s : SessionState) :
    (handleSaveAndNext t s).mcqCompleted = s.mcqCompleted ∧
    (handleSaveAndNext t s).showInstructions = s.showInstructions := by
  simp only [handleSaveAndNext]
  repeat' split <;> try simp_all

/-- Like `flags_handleSaveAndNext` for review-and-next. -/
theorem flags_handleMarkForReviewAndNext (t : Test) (s : SessionState) :
    (handleMarkForReviewAndNext t s).mcqCompleted = s.mcqCompleted ∧
    (handleMarkForReviewAndNext t s).showInstructions = s.showInstructions := by
  unfold handleMarkForReviewAndNext
  have h := flags_handleSaveAndNext t (handleMarkForReview t s)
  have h2 : (handleMarkForReview t s).mcqCompleted = s.mcqCompleted ∧
      (handleMarkForReview t s).showInstructions = s.showInstructions := by
    unfold handleMarkForReview
    repeat' split <;> try simp_all
  exact ⟨h.1.trans h2.1, h.2.trans h2.2⟩

/-- Like `flags_handleSaveAndNext` for direct navigation. -/
theorem flags_handleNavigateToQuestion (t : Test) (idx : Nat)
    (s : SessionState) :
    (handleNavigateToQuestion t idx s).mcqCompleted = s.mcqCompleted ∧
    (handleNavigateToQuestion t idx s).showInstructions =
      s.showInstructions := by
  unfold handleNavigateToQuestion
  repeat( split) <;> try simp_all

/-- Like `flags_handleSaveAndNext` for clear-response. -/
theorem flags_handleClearResponse (t : Test) (s : SessionState) :
    (handleClearResponse t s).mcqCompleted = s.mcqCompleted ∧
    (handleClearResponse t s).showInstructions = s.showInstructions := by
  unfold handleClearResponse
  repeat( split) <;> try simp_all


/-- After the forced transition has happened (`mcqCompleted` set, past
the instructions screen), any further event keeps both facts and never
reports another forced transition. -/
theorem stepF_preserves_done (t : Test) (o : Op) (w : World)
    (h1 : w.state.mcqCompleted = true) (h2 : w.state.showInstructions = false) :
    (stepF t o w).1.state.mcqCompleted = true ∧
    (stepF t o w).1.state.showInstructions = false ∧
    (stepF t o w).2 = false := by
  cases o with
  | setAgree b => simp [stepF, instructionsView, h2, h1]
  | start => simp [stepF, instructionsView, h2, h1]
  | select ans =>
      simp only [stepF]
      repeat' split <;> try simp_all [onState, handleAnswerSelect]
  | clear =>
      simp only [stepF]
      split <;>
        simp [onState, flags_handleClearResponse, h1, h2]
  | reviewAndNext =>
      simp only [stepF]
      split <;>
        simp [onState, flags_handleMarkForReviewAndNext, h1, h2]
  | saveNext =>
      simp only [stepF]
      split <;> simp [onState, flags_handleSaveAndNext, h1, h2]
  | navigate idx =>
      simp only [stepF]
      split <;> simp [onState, flags_handleNavigateToQuestion, h1, h2]
  | reviewAnswers =>
      simp only [stepF]
      split <;> simp [onState, h1, h2]
  | nextSection =>
      simp only [stepF]
      split <;> simp [onState, (done_handleNextSection t w.state h1).1,
        (done_handleNextSection t w.state h1).2, h1, h2]
  | headerSubmit =>
      simp only [stepF]
      split <;> simp [onState, (done_handleMcqHeaderSubmit t w.state h1).1,
        (done_handleMcqHeaderSubmit t w.state h1).2, h1, h2]
  | codingSelect cid =>
      simp only [stepF]
      split <;> simp [onState, h1, h2]
  | codingSubmitBtn =>
      simp only [stepF]
      split <;> simp [onState, h1, h2]
  | codingRecord sid score =>
      simp only [stepF]
      split <;> simp [onState, h1, h2]
  | cancelSubmit =>
      simp only [stepF]
      split <;> simp [onState, h1, h2]
  | confirmSubmit e ok =>
      simp only [stepF]
      split <;>
        simp [(handleSubmit_flags e ok t w).1, (handleSubmit_flags e ok t w).2,
          h1, h2]
  | tick e ok =>
      simp only [stepF, timerTick]
      split
      · simp_all [instructionsView]
      · split
        · simpa using
            ⟨(handleAutoSubmitF_done e ok t w h1).1,
             by rw [(handleAutoSubmitF_done e ok t w h1).2.1]; exact h2,
             (handleAutoSubmitF_done e ok t w h1).2.2⟩
        · simp [h1, h2]
  | hide e ok =>
      simp only [stepF, violationEventF]
      split
      · simp_all
      · split
        · rename_i hg
          exact absurd hg.2.2.2 (by simp [h1])
        · simp [h1, h2]
  | violRecheck e ok =>
      simp only [stepF, violationRecheckF]
      split
      · rename_i hg
        exact absurd hg.2.2.2 (by simp [h1])
      · simp [h1, h2]
  | unload startMs =>
      simp only [stepF, handleBeforeUnload]
      split <;> simp [h1, h2]
  | restore =>
      simp only [stepF, restoreEffect]
      repeat' split <;> try simp_all


/-- A step reporting the forced transition leaves the session in the
state that blocks any further one. -/
theorem stepF_fired_done (t : Test) (o : Op) (w : World)
    (h : (stepF t o w).2 = true) :
    (stepF t o w).1.state.mcqCompleted = true ∧
    (stepF t o w).1.state.showInstructions = false := by
  cases o with
  | tick e ok =>
      revert h
      simp only [stepF, timerTick]
      split
      · simp
      · split
        · intro h
          have hf := handleAutoSubmitF_fired e ok t w (by simpa using h)
          rename_i hsi _
          have hsi2 : w.state.showInstructions = false := by
            simpa [instructionsView] using hsi
          exact ⟨by simpa using hf.1, by simp [hf.2, hsi2]⟩
        · simp
  | hide e ok =>
      revert h
      simp only [stepF, violationEventF]
      split
      · simp
      · split
        · intro h
          have hf := autoSubmitTestF_fired e ok t _ h
          rename_i hg
          exact ⟨hf.1, by rw [hf.2]; exact hg.2.1⟩
        · simp
  | violRecheck e ok =>
      revert h
      simp only [stepF, violationRecheckF]
      split
      · intro h
        have hf := autoSubmitTestF_fired e ok t _ h
        rename_i hg
        exact ⟨hf.1, by rw [hf.2]; exact hg.2.1⟩
      · simp
  | setAgree b => revert h; simp only [stepF]; simp
  | start => revert h; simp only [stepF]; simp
  | select ans => revert h; simp only [stepF]; simp
  | clear => revert h; simp only [stepF]; simp
  | reviewAndNext => revert h; simp only [stepF]; simp
  | saveNext => revert h; simp only [stepF]; simp
  | navigate idx => revert h; simp only [stepF]; simp
  | reviewAnswers => revert h; simp only [stepF]; simp
  | nextSection => revert h; simp only [stepF]; simp
  | headerSubmit => revert h; simp only [stepF]; simp
  | codingSelect cid => revert h; simp only [stepF]; simp
  | codingSubmitBtn => revert h; simp only [stepF]; simp
  | codingRecord sid score => revert h; simp only [stepF]; simp
  | cancelSubmit => revert h; simp only [stepF]; simp
  | confirmSubmit e ok => revert h; simp only [stepF]; simp
  | unload startMs => revert h; simp only [stepF]; simp
  | restore => revert h; simp only [stepF]; simp

/-- Trace induction: at most one forced transition overall, and none at
all once the session is past it. -/
theorem forcedCount_le (t : Test) (ops : List Op) (w : World) :
    forcedCount t ops w ≤ 1 ∧
    (w.state.mcqCompleted = true → w.state.showInstructions = false →
      forcedCount t ops w = 0) := by
  induction ops generalizing w with
  | nil => simp [forcedCount]
  | cons o os ih =>
      cases hf : (stepF t o w).2 with
      | false =>
          constructor
          · simpa [forcedCount, hf] using (ih (stepF t o w).1).1
          · intro h1 h2
            have hd := stepF_preserves_done t o w h1 h2
            simpa [forcedCount, hf] using (ih (stepF t o w).1).2 hd.1 hd.2.1
      | true =>
          have hd := stepF_fired_done t o w hf
          constructor
          · simpa [forcedCount, hf] using
              Nat.le_of_eq ((ih (stepF t o w).1).2 hd.1 hd.2)
          · intro h1 h2
            have := (stepF_preserves_done t o w h1 h2).2.2
            simp_all

/-- C3.  Over every event trace from every state -- both triggers
racing, extra tab-hide events after the count has reached 3, and effect
re-runs included -- the forced MCQ-to-coding transition fires at most
once. -/
theorem forced_transition_at_most_once (t : Test) (ops : List Op) (w : World) :
    forcedCount t ops w ≤ 1 :=
  (forcedCount_le t ops w).1

/-! ### C5: the section index never decreases -/

/-- `selectFirstCoding` leaves the section index alone. -/
theorem idx_selectFirstCoding (t : Test) (s : SessionState) :
    (selectFirstCoding t s).currentSectionIndex = s.currentSectionIndex := by
  unfold selectFirstCoding
  split <;> simp

/-- Clear-response leaves the section index alone. -/
theorem idx_handleClearResponse (t : Test) (s : SessionState) :
    (handleClearResponse t s).currentSectionIndex = s.currentSectionIndex := by
  unfold handleClearResponse
  repeat' split <;> try simp_all

/-- Save-and-next leaves the section index alone. -/
theorem idx_handleSaveAndNext (t : Test) (s : SessionState) :
    (handleSaveAndNext t s).currentSectionIndex = s.currentSectionIndex := by
  simp only [handleSaveAndNext]
  repeat' split <;> try simp_all

/-- Review-and-next leaves the section index alone. -/
theorem idx_handleMarkForReviewAndNext (t : Test) (s : SessionState) :
    (handleMarkForReviewAndNext t s).currentSectionIndex =
      s.currentSectionIndex := by
  unfold handleMarkForReviewAndNext
  rw [idx_handleSaveAndNext]
  unfold handleMarkForReview
  repeat' split <;> try simp_all

/-- Direct navigation leaves the section index alone. -/
theorem idx_handleNavigateToQuestion (t : Test) (idx : Nat) (s : SessionState) :
    (handleNavigateToQuestion t idx s).currentSectionIndex =
      s.currentSectionIndex := by
  unfold handleNavigateToQuestion
  repeat' split <;> try simp_all

/-- `handleNextSection` never decreases the section index. -/
theorem idx_handleNextSection (t : Test) (s : SessionState) :
    s.currentSectionIndex ≤ (handleNextSection t s).currentSectionIndex := by
  simp only [handleNextSection, selectFirstCoding]
  repeat' split <;> try simp_all

/-- The MCQ header button leaves the section index alone. -/
theorem idx_handleMcqHeaderSubmit (t : Test) (s : SessionState) :
    (handleMcqHeaderSubmit t s).currentSectionIndex = s.currentSectionIndex := by
  simp only [handleMcqHeaderSubmit, selectFirstCoding]
  repeat' split <;> try simp_all

/-- Starting the test leaves the section index alone. -/
theorem idx_handleStartTest (t : Test) (s : SessionState) :
    (handleStartTest t s).currentSectionIndex = s.currentSectionIndex := by
  simp only [handleStartTest, selectFirstCoding]
  repeat' split <;> try simp_all

/-- `handleSubmit` leaves the section index alone. -/
theorem idx_handleSubmit (e : Nat) (ok : Bool) (t : Test) (w : World) :
    (handleSubmit e ok t w).state.currentSectionIndex =
      w.state.currentSectionIndex := by
  unfold handleSubmit
  repeat' split <;> try simp_all

/-- The expiry handler leaves the section index alone. -/
theorem idx_handleAutoSubmitF (e : Nat) (ok : Bool) (t : Test) (w : World) :
    (handleAutoSubmitF e ok t w).1.state.currentSectionIndex =
      w.state.currentSectionIndex := by
  simp only [handleAutoSubmitF, selectFirstCoding]
  repeat' split <;> try simp_all [idx_handleSubmit]

/-- The violation-effect body leaves the section index alone. -/
theorem idx_autoSubmitTestF (e : Nat) (ok : Bool) (t : Test) (w : World) :
    (autoSubmitTestF e ok t w).1.state.currentSectionIndex =
      w.state.currentSectionIndex := by
  simp only [autoSubmitTestF, selectFirstCoding]
  repeat' split <;> try simp_all

/-- The violation-effect body never changes `showInstructions`. -/
theorem autoSubmitTestF_showInstructions (e : Nat) (ok : Bool) (t : Test)
    (w : World) :
    (autoSubmitTestF e ok t w).1.state.showInstructions =
      w.state.showInstructions := by
  simp only [autoSubmitTestF, selectFirstCoding]
  repeat' split <;> try simp_all



/-- `handleNextSection` never changes `showInstructions`. -/
theorem show_handleNextSection (t : Test) (s : SessionState) :
    (handleNextSection t s).showInstructions = s.showInstructions := by
  simp only [handleNextSection, selectFirstCoding]
  repeat' split <;> try simp_all

/-- The MCQ header button never changes `showInstructions`. -/
theorem show_handleMcqHeaderSubmit (t : Test) (s : SessionState) :
    (handleMcqHeaderSubmit t s).showInstructions = s.showInstructions := by
  simp only [handleMcqHeaderSubmit, selectFirstCoding]
  repeat' split <;> try simp_all

/-- While the instructions screen is up, the section index is still its
initial 0 or exactly the value of the stored checkpoint (which cannot
change during that phase).  This is what makes the one restore jump
non-decreasing. -/
def instrIdx (w : World) : Prop :=
  w.state.showInstructions = true →
    (w.state.currentSectionIndex = 0 ∨
     ∃ cp, w.checkpoint = some cp ∧
       w.state.currentSectionIndex = cp.currentSectionIndex)

/-- No event ever brings the instructions screen back. -/
theorem step_showInstructions_off (t : Test) (o : Op) (w : World)
    (h : w.state.showInstructions = false) :
    (step t o w).state.showInstructions = false := by
  cases o with
  | setAgree b => simp [step, stepF, instructionsView, h]
  | start => simp [step, stepF, instructionsView, h]
  | select ans =>
      simp only [step, stepF]
      repeat' split <;> try simp_all [onState, handleAnswerSelect]
  | clear =>
      simp only [step, stepF]
      split <;> simp [onState, flags_handleClearResponse, h]
  | reviewAndNext =>
      simp only [step, stepF]
      split <;> simp [onState, flags_handleMarkForReviewAndNext, h]
  | saveNext =>
      simp only [step, stepF]
      split <;> simp [onState, flags_handleSaveAndNext, h]
  | navigate idx =>
      simp only [step, stepF]
      split <;> simp [onState, flags_handleNavigateToQuestion, h]
  | reviewAnswers =>
      simp only [step, stepF]
      split <;> simp [onState, h]
  | nextSection =>
      simp only [step, stepF]
      split <;> simp [onState, show_handleNextSection, h]
  | headerSubmit =>
      simp only [step, stepF]
      split <;> simp [onState, show_handleMcqHeaderSubmit, h]
  | codingSelect cid =>
      simp only [step, stepF]
      split <;> simp [onState, h]
  | codingSubmitBtn =>
      simp only [step, stepF]
      split <;> simp [onState, h]
  | codingRecord sid score =>
      simp only [step, stepF]
      split <;> simp [onState, h]
  | cancelSubmit =>
      simp only [step, stepF]
      split <;> simp [onState, h]
  | confirmSubmit e ok =>
      simp only [step, stepF]
      split <;> simp [(handleSubmit_flags e ok t w).2, h]
  | tick e ok =>
      simp only [step, stepF, timerTick]
      repeat' split <;> try simp_all [handleAutoSubmitF_showInstructions]
  | hide e ok =>
      simp only [step, stepF, violationEventF]
      repeat' split <;> try simp_all [autoSubmitTestF_showInstructions]
  | violRecheck e ok =>
      simp only [step, stepF, violationRecheckF]
      repeat' split <;> try simp_all [autoSubmitTestF_showInstructions]
  | unload startMs =>
      simp only [step, stepF, handleBeforeUnload]
      split <;> simp [h]
  | restore =>
      simp only [step, stepF, restoreEffect]
      repeat' split <;> try simp_all


/-- `handleStartTest` either rejects (terms not accepted) or leaves the
instructions screen. -/
theorem handleStartTest_cases (t : Test) (s : SessionState) :
    handleStartTest t s = s ∨ (handleStartTest t s).showInstructions = false := by
  simp only [handleStartTest, selectFirstCoding]
  repeat' split <;> try simp_all

/-- Every single event keeps the section index non-decreasing and
preserves the instructions-phase invariant. -/
theorem step_sectionIndex (t : Test) (o : Op) (w : World) (hJ : instrIdx w) :
    w.state.currentSectionIndex ≤ (step t o w).state.currentSectionIndex ∧
    instrIdx (step t o w) := by
  by_cases hsi : w.state.showInstructions = true
  · -- on the instructions screen: only agree, start and restore do anything
    cases o with
    | setAgree b =>
        refine ⟨?_, ?_⟩ <;> simp [step, stepF, instructionsView, hsi, onState]
        intro _
        simpa using hJ hsi
    | start =>
        simp only [step, stepF, instructionsView, if_pos hsi, onState]
        rcases handleStartTest_cases t w.state with hcs | hcs
        · rw [hcs]
          exact ⟨le_refl _, fun hc => by simpa using hJ hc⟩
        · refine ⟨le_of_eq (idx_handleStartTest t w.state).symm, fun hc => ?_⟩
          rw [hcs] at hc
          simp at hc
    | restore =>
        simp only [step, stepF, restoreEffect, if_pos hsi]
        rcases hcp : w.checkpoint with _ | cp
        · exact ⟨le_refl _, fun hc => by simpa [hcp] using hJ hc⟩
        · constructor
          · rcases hJ hsi with h0 | ⟨cq, hcq, heq⟩
            · simp [h0]
            · rw [hcp] at hcq
              cases Option.some.inj hcq
              simp [restoreProgress, heq]
          · intro _
            right
            exact ⟨cp, by simp [hcp], by simp [restoreProgress]⟩
    | select ans =>
        have hno : step t (Op.select ans) w = w := by
          simp [step, stepF, mcqView, hsi]
        rw [hno]; exact ⟨le_refl _, hJ⟩
    | clear =>
        have hno : step t Op.clear w = w := by
          simp [step, stepF, mcqView, hsi]
        rw [hno]; exact ⟨le_refl _, hJ⟩
    | reviewAndNext =>
        have hno : step t Op.reviewAndNext w = w := by
          simp [step, stepF, mcqView, hsi]
        rw [hno]; exact ⟨le_refl _, hJ⟩
    | saveNext =>
        have hno : step t Op.saveNext w = w := by
          simp [step, stepF, mcqView, hsi]
        rw [hno]; exact ⟨le_refl _, hJ⟩
    | navigate idx =>
        have hno : step t (Op.navigate idx) w = w := by
          simp [step, stepF, mcqView, hsi]
        rw [hno]; exact ⟨le_refl _, hJ⟩
    | reviewAnswers =>
        have hno : step t Op.reviewAnswers w = w := by
          simp [step, stepF, mcqView, hsi]
        rw [hno]; exact ⟨le_refl _, hJ⟩
    | nextSection =>
        have hno : step t Op.nextSection w = w := by
          simp [step, stepF, mcqView, hsi]
        rw [hno]; exact ⟨le_refl _, hJ⟩
    | headerSubmit =>
        have hno : step t Op.headerSubmit w = w := by
          simp [step, stepF, mcqView, hsi]
        rw [hno]; exact ⟨le_refl _, hJ⟩
    | codingSelect cid =>
        have hno : step t (Op.codingSelect cid) w = w := by
          simp [step, stepF, codingView, hsi]
        rw [hno]; exact ⟨le_refl _, hJ⟩
    | codingSubmitBtn =>
        have hno : step t Op.codingSubmitBtn w = w := by
          simp [step, stepF, codingView, hsi]
        rw [hno]; exact ⟨le_refl _, hJ⟩
    | codingRecord sid score =>
        have hno : step t (Op.codingRecord sid score) w = w := by
          simp [step, stepF, codingView, hsi]
        rw [hno]; exact ⟨le_refl _, hJ⟩
    | cancelSubmit =>
        have hno : step t Op.cancelSubmit w = w := by
          simp [step, stepF, mcqView, hsi]
        rw [hno]; exact ⟨le_refl _, hJ⟩
    | confirmSubmit e ok =>
        have hno : step t (Op.confirmSubmit e ok) w = w := by
          simp [step, stepF, mcqView, hsi]
        rw [hno]; exact ⟨le_refl _, hJ⟩
    | tick e ok =>
        have hno : step t (Op.tick e ok) w = w := by
          simp [step, stepF, timerTick, hsi]
        rw [hno]; exact ⟨le_refl _, hJ⟩
    | hide e ok =>
        have hno : step t (Op.hide e ok) w = w := by
          simp [step, stepF, violationEventF, hsi]
        rw [hno]; exact ⟨le_refl _, hJ⟩
    | violRecheck e ok =>
        have hno : step t (Op.violRecheck e ok) w = w := by
          simp [step, stepF, violationRecheckF, violationGuard, hsi]
        rw [hno]; exact ⟨le_refl _, hJ⟩
    | unload startMs =>
        have hno : step t (Op.unload startMs) w = w := by
          simp [step, stepF, handleBeforeUnload, hsi]
        rw [hno]; exact ⟨le_refl _, hJ⟩
  · -- past the instructions screen
    have hf : w.state.showInstructions = false := by
      cases hx : w.state.showInstructions with
      | false => rfl
      | true => exact absurd hx hsi
    have hoff := step_showInstructions_off t o w hf
    refine ⟨?_, fun hc => absurd hc (by simp [hoff])⟩
    cases o with
    | setAgree b => simp [step, stepF, instructionsView, hf]
    | start => simp [step, stepF, instructionsView, hf]
    | select ans =>
        simp only [step, stepF]
        repeat' split <;> try simp_all [onState, handleAnswerSelect]
    | clear =>
        simp only [step, stepF]
        split <;> simp [onState, idx_handleClearResponse]
    | reviewAndNext =>
        simp only [step, stepF]
        split <;> simp [onState, idx_handleMarkForReviewAndNext]
    | saveNext =>
        simp only [step, stepF]
        split <;> simp [onState, idx_handleSaveAndNext]
    | navigate idx =>
        simp only [step, stepF]
        split <;> simp [onState, idx_handleNavigateToQuestion]
    | reviewAnswers =>
        simp only [step, stepF]
        split <;> simp [onState]
    | nextSection =>
        simp only [step, stepF]
        split <;> simp [onState, idx_handleNextSection]
    | headerSubmit =>
        simp only [step, stepF]
        split <;> simp [onState, idx_handleMcqHeaderSubmit]
    | codingSelect cid =>
        simp only [step, stepF]
        split <;> simp [onState]
    | codingSubmitBtn =>
        simp only [step, stepF]
        split <;> simp [onState]
    | codingRecord sid score =>
        simp only [step, stepF]
        split <;> simp [onState]
    | cancelSubmit =>
        simp only [step, stepF]
        split <;> simp [onState]
    | confirmSubmit e ok =>
        simp only [step, stepF]
        split <;> simp [idx_handleSubmit]
    | tick e ok =>
        simp only [step, stepF, timerTick]
        repeat' split <;> try simp_all [idx_handleAutoSubmitF]
    | hide e ok =>
        simp only [step, stepF, violationEventF]
        repeat' split <;> try simp_all [idx_autoSubmitTestF]
    | violRecheck e ok =>
        simp only [step, stepF, violationRecheckF]
        repeat' split <;> try simp_all [idx_autoSubmitTestF]
    | unload startMs =>
        simp only [step, stepF, handleBeforeUnload]
        split <;> simp
    | restore =>
        simp [step, stepF, restoreEffect, hf]


/-- Running a concatenated trace is running its parts in order. -/
theorem run_append (t : Test) (ops1 ops2 : List Op) (w : World) :
    run t (ops1 ++ ops2) w = run t ops2 (run t ops1 w) := by
  induction ops1 generalizing w with
  | nil => rfl
  | cons o os ih => simp [run, ih]

/-- Trace-level monotonicity of the section index. -/
theorem run_sectionIndex (t : Test) (ops : List Op) (w : World)
    (hJ : instrIdx w) :
    w.state.currentSectionIndex ≤ (run t ops w).state.currentSectionIndex ∧
    instrIdx (run t ops w) := by
  induction ops generalizing w with
  | nil => exact ⟨le_refl _, hJ⟩
  | cons o os ih =>
      have hs := step_sectionIndex t o w hJ
      have hr := ih (step t o w) hs.2
      exact ⟨le_trans hs.1 hr.1, hr.2⟩

/-- C5.  For every test, stored checkpoint and event trace,
`currentSectionIndex` is monotonically non-decreasing for the lifetime
of the session: whatever its value after some prefix of events, no
continuation of the session can ever lower it, so a section once exited
is unreachable. -/
theorem sectionIndex_monotone (t : Test) (cp : Option Checkpoint)
    (ops1 ops2 : List Op) :
    (run t ops1 (initWorld t cp)).state.currentSectionIndex ≤
      (run t (ops1 ++ ops2) (initWorld t cp)).state.currentSectionIndex := by
  rw [run_append]
  have hJ0 : instrIdx (initWorld t cp) := fun _ => Or.inl rfl
  exact (run_sectionIndex t ops2 _ (run_sectionIndex t ops1 _ hJ0).2).1

/-! ### C9: answered implies visited -/

/-- Removing the bindings of one key leaves every other lookup alone. -/
theorem lookup_filter_ne {β : Type} (m : List (String × β)) (k k' : String)
    (h : ¬k' = k) :
    (m.filter fun p => p.1 ≠ k).lookup k' = m.lookup k' := by
  induction m with
  | nil => rfl
  | cons p ps ih =>
      simp only [ne_eq, decide_not] at ih
      obtain ⟨pk, pv⟩ := p
      by_cases hp : pk = k
      · have hb : (k' == pk) = false :=
          beq_eq_false_iff_ne.mpr (by rw [hp]; exact h)
        have hb2 : (k' == k) = false := beq_eq_false_iff_ne.mpr h
        simp [List.filter_cons, hp, List.lookup, hb, hb2, ih]
      · cases hbq : (k' == pk) with
        | true => simp [List.filter_cons, hp, List.lookup, hbq]
        | false => simp [List.filter_cons, hp, List.lookup, hbq, ih]

/-- Lookup after an `upsert`. -/
theorem lookup_upsert {β : Type} (m : List (String × β)) (k k' : String)
    (v : β) :
    (upsert m k v).lookup k' = if k' = k then some v else m.lookup k' := by
  by_cases h : k' = k
  · have hb : (k' == k) = true := beq_iff_eq.mpr h
    simp [upsert, List.lookup, hb, h]
  · have hb : (k' == k) = false := beq_eq_false_iff_ne.mpr h
    have hf := lookup_filter_ne m k k' h
    simp only [ne_eq, decide_not] at hf
    simp [upsert, List.lookup, hb, h, hf]

/-- A true flag survives marking any key. -/
theorem getB_upsert_true (m : List (String × Bool)) (k k' : String)
    (h : getB m k' = true) :
    getB (upsert m k true) k' = true := by
  unfold getB at h ⊢
  rw [lookup_upsert]
  by_cases hk : k' = k <;> simp [hk, h]

/-- Marking a key sets its flag. -/
theorem getB_upsert_self (m : List (String × Bool)) (k : String) :
    getB (upsert m k true) k = true := by
  unfold getB
  rw [lookup_upsert]
  simp

/-- Membership after an `upsert`. -/
theorem mem_upsert {β : Type} (m : List (String × β)) (k : String) (v : β)
    (p : String × β) (h : p ∈ upsert m k v) :
    p = (k, v) ∨ p ∈ m := by
  rcases List.mem_cons.mp h with h1 | h2
  · exact Or.inl h1
  · exact Or.inr (List.mem_of_mem_filter h2)

/-- Membership after a key removal. -/
theorem mem_delKey {β : Type} (m : List (String × β)) (k : String)
    (p : String × β) (h : p ∈ delKey m k) : p ∈ m :=
  List.mem_of_mem_filter h


/-- The claimed invariant: every answered question id is visited. -/
def AV (s : SessionState) : Prop :=
  ∀ p ∈ s.answers, getB s.visitedQuestions p.1 = true

/-- The current question (when one exists) is visited. -/
def CV (t : Test) (s : SessionState) : Prop :=
  ∀ q, getCurrentQuestion t s = some q → getB s.visitedQuestions q.qid = true

/-- Executable form of the answered-implies-visited invariant. -/
def answersVisitedInvB (s : SessionState) : Bool :=
  s.answers.all fun p => getB s.visitedQuestions p.1

/-- The boolean and propositional forms agree. -/
theorem answersVisitedInvB_iff (s : SessionState) :
    answersVisitedInvB s = true ↔ AV s := by
  simp [answersVisitedInvB, AV, List.all_eq_true]

/-- `getCurrentQuestion` only reads the two position indices. -/
theorem getCurrentQuestion_congr (t : Test) (s s' : SessionState)
    (h1 : s'.currentSectionIndex = s.currentSectionIndex)
    (h2 : s'.currentQuestionIndex = s.currentQuestionIndex) :
    getCurrentQuestion t s' = getCurrentQuestion t s := by
  simp [getCurrentQuestion, getCurrentSectionQuestions, getCurrentSection, h1, h2]

/-- Answering the current (always-visited) question preserves both
invariants. -/
theorem AVCV_handleAnswerSelect (t : Test) (s : SessionState) (ans : String)
    (q : Question) (hq : getCurrentQuestion t s = some q)
    (hav : AV s) (hcv : CV t s) :
    AV (handleAnswerSelect q.qid ans s) ∧ CV t (handleAnswerSelect q.qid ans s) := by
  constructor
  · intro p hp
    rcases mem_upsert _ _ _ _ hp with h1 | h2
    · rw [h1]
      exact hcv q hq
    · exact hav p h2
  · intro q' hq'
    exact hcv q' ((getCurrentQuestion_congr t s _ rfl rfl).symm.trans hq')

/-- Clearing a response only shrinks the answers map. -/
theorem AVCV_handleClearResponse (t : Test) (s : SessionState)
    (hav : AV s) (hcv : CV t s) :
    AV (handleClearResponse t s) ∧ CV t (handleClearResponse t s) := by
  unfold handleClearResponse
  split
  · exact ⟨hav, hcv⟩
  · constructor
    · intro p hp
      exact hav p (mem_delKey _ _ _ hp)
    · intro q' hq'
      exact hcv q' ((getCurrentQuestion_congr t s _ rfl rfl).symm.trans hq')

/-- Toggling a review mark touches neither invariant. -/
theorem AVCV_handleMarkForReview (t : Test) (s : SessionState)
    (hav : AV s) (hcv : CV t s) :
    AV (handleMarkForReview t s) ∧ CV t (handleMarkForReview t s) := by
  unfold handleMarkForReview
  split
  · exact ⟨hav, hcv⟩
  · constructor
    · intro p hp
      exact hav p hp
    · intro q' hq'
      exact hcv q' ((getCurrentQuestion_congr t s _ rfl rfl).symm.trans hq')

/-- Advancing marks the new current question visited first. -/
theorem AVCV_handleSaveAndNext (t : Test) (s : SessionState)
    (hav : AV s) (hcv : CV t s) :
    AV (handleSaveAndNext t s) ∧ CV t (handleSaveAndNext t s) := by
  simp only [handleSaveAndNext]
  split
  · split
    · rename_i hlt q hq
      constructor
      · intro p hp
        exact getB_upsert_true _ _ _ (hav p hp)
      · intro q' hq'
        simp only [getCurrentQuestion, getCurrentSectionQuestions,
          getCurrentSection] at hq hq'
        rw [hq'] at hq
        cases Option.some.inj hq
        exact getB_upsert_self _ _
    · exact ⟨hav, hcv⟩
  · constructor
    · intro p hp
      exact hav p hp
    · intro q' hq'
      exact hcv q' ((getCurrentQuestion_congr t s _ rfl rfl).symm.trans hq')


/-- Direct navigation marks the target visited. -/
theorem AVCV_handleNavigateToQuestion (t : Test) (nidx : Nat) (s : SessionState)
    (hav : AV s) (hcv : CV t s) :
    AV (handleNavigateToQuestion t nidx s) ∧
    CV t (handleNavigateToQuestion t nidx s) := by
  unfold handleNavigateToQuestion
  split
  · rename_i q hq
    constructor
    · intro p hp
      exact getB_upsert_true _ _ _ (hav p hp)
    · intro q' hq'
      simp only [getCurrentQuestion, getCurrentSectionQuestions,
        getCurrentSection] at hq hq'
      rw [hq'] at hq
      cases Option.some.inj hq
      exact getB_upsert_self _ _
  · exact ⟨hav, hcv⟩

/-- Toggling a review mark touches neither invariant. -/
theorem AVCV_handleMarkForReviewAndNext (t : Test) (s : SessionState)
    (hav : AV s) (hcv : CV t s) :
    AV (handleMarkForReviewAndNext t s) ∧
    CV t (handleMarkForReviewAndNext t s) := by
  unfold handleMarkForReviewAndNext
  have h1 := AVCV_handleMarkForReview t s hav hcv
  exact AVCV_handleSaveAndNext t _ h1.1 h1.2

/-- Selecting a coding question touches neither invariant. -/
theorem AVCV_selectFirstCoding (t : Test) (s : SessionState)
    (hav : AV s) (hcv : CV t s) :
    AV (selectFirstCoding t s) ∧ CV t (selectFirstCoding t s) := by
  unfold selectFirstCoding
  split
  · constructor
    · intro p hp
      exact hav p hp
    · intro q' hq'
      exact hcv q' ((getCurrentQuestion_congr t s _ rfl rfl).symm.trans hq')
  · exact ⟨hav, hcv⟩

/-- `head?` is lookup at index zero. -/
theorem head?_eq_zeroth {α : Type} (l : List α) : l.head? = l.get? 0 := by
  cases l <;> rfl

/-- Entering the next section marks its first question visited. -/
theorem AVCV_handleNextSection (t : Test) (s : SessionState)
    (hav : AV s) (hcv : CV t s) :
    AV (handleNextSection t s) ∧ CV t (handleNextSection t s) := by
  simp only [handleNextSection]
  split
  · rename_i hcond
    split
    · rename_i sec hsec
      split
      · rename_i q hq
        constructor
        · intro p hp
          exact getB_upsert_true _ _ _ (hav p hp)
        · intro q' hq'
          simp only [getCurrentQuestion, getCurrentSectionQuestions,
            getCurrentSection, hcond.1, if_pos, hsec] at hq'
          rw [head?_eq_zeroth] at hq
          rw [hq'] at hq
          cases Option.some.inj hq
          exact getB_upsert_self _ _
      · rename_i hq
        constructor
        · intro p hp
          exact hav p hp
        · intro q' hq'
          simp only [getCurrentQuestion, getCurrentSectionQuestions,
            getCurrentSection, hcond.1, if_pos, hsec] at hq'
          rw [head?_eq_zeroth, hq'] at hq
          exact absurd hq (by simp)
    · exact ⟨hav, hcv⟩
  · split
    · exact AVCV_selectFirstCoding t _ hav
        (fun q' hq' => hcv q' ((getCurrentQuestion_congr t s _ rfl rfl).symm.trans hq'))
    · constructor
      · intro p hp
        exact hav p hp
      · intro q' hq'
        exact hcv q' ((getCurrentQuestion_congr t s _ rfl rfl).symm.trans hq')


/-- The MCQ header button touches neither invariant. -/
theorem AVCV_handleMcqHeaderSubmit (t : Test) (s : SessionState)
    (hav : AV s) (hcv : CV t s) :
    AV (handleMcqHeaderSubmit t s) ∧ CV t (handleMcqHeaderSubmit t s) := by
  unfold handleMcqHeaderSubmit
  split
  · exact AVCV_selectFirstCoding t _ hav
      (fun q' hq' => hcv q' ((getCurrentQuestion_congr t s _ rfl rfl).symm.trans hq'))
  · exact ⟨fun p hp => hav p hp,
      fun q' hq' => hcv q' ((getCurrentQuestion_congr t s _ rfl rfl).symm.trans hq')⟩

/-- A fresh bootstrap (empty answers, initial position) establishes both
invariants even though it replaces the whole visited map. -/
theorem AVCV_handleStartTest (t : Test) (s : SessionState)
    (ha : s.answers = [])
    (hq0 : s.currentQuestionIndex = 0) (hsi : s.showInstructions = true) :
    AV (handleStartTest t s) ∧
    ((handleStartTest t s).showInstructions = false → CV t (handleStartTest t s)) := by
  simp only [handleStartTest]
  split
  · rename_i hag
    refine ⟨fun p hp => ?_, fun hc => ?_⟩
    · rw [ha] at hp
      cases hp
    · rw [hsi] at hc
      cases hc
  · split
    · rename_i hemp
      have hnil : getCurrentSectionQuestions t
          { s with showInstructions := false } = [] := by
        simpa [List.isEmpty_iff] using hemp
      split
      · have hA : AV ({ s with showInstructions := false, showCodingSection := true, mcqCompleted := true } : SessionState) :=
          fun p hp => by simp only [ha] at hp; cases hp
        have hC : CV t ({ s with showInstructions := false, showCodingSection := true, mcqCompleted := true } : SessionState) := by
          intro q' hq'
          exfalso
          have h2 : getCurrentQuestion t ({ s with showInstructions := false } : SessionState) = some q' :=
            (getCurrentQuestion_congr t ({ s with showInstructions := false } : SessionState) _ rfl rfl).symm.trans hq'
          rw [getCurrentQuestion, hnil] at h2
          simp at h2
        have hx := AVCV_selectFirstCoding t _ hA hC
        exact ⟨hx.1, fun _ => hx.2⟩
      · refine ⟨fun p hp => ?_, fun _ q' hq' => ?_⟩
        · rw [ha] at hp
          cases hp
        · exfalso
          rw [getCurrentQuestion, hnil] at hq'
          simp at hq'
    · split
      · rename_i hne q hq
        refine ⟨fun p hp => ?_, fun _ q' hq' => ?_⟩
        · rw [ha] at hp
          cases hp
        · simp only [getCurrentQuestion, getCurrentSectionQuestions,
            getCurrentSection, hq0] at hq'
          simp only [getCurrentSectionQuestions, getCurrentSection] at hq
          rw [head?_eq_zeroth] at hq
          simp only [hq'] at hq
          cases Option.some.inj hq
          simp [getB, List.lookup]
      · rename_i hne hq
        refine ⟨fun p hp => ?_, fun _ q' hq' => ?_⟩
        · rw [ha] at hp
          cases hp
        · exfalso
          simp only [getCurrentQuestion, getCurrentSectionQuestions,
            getCurrentSection, hq0] at hq'
          simp only [getCurrentSectionQuestions, getCurrentSection] at hq
          rw [head?_eq_zeroth] at hq
          simp only [hq'] at hq
          cases hq


/-- `AV` only reads `answers` and `visitedQuestions`. -/
theorem AV_of_fields (s s' : SessionState)
    (h1 : s'.answers = s.answers)
    (h2 : s'.visitedQuestions = s.visitedQuestions)
    (hav : AV s) : AV s' := by
  intro p hp
  rw [h1] at hp
  rw [h2]
  exact hav p hp

/-- `CV` only reads the visited map and the two position indices. -/
theorem CV_of_fields (t : Test) (s s' : SessionState)
    (h2 : s'.visitedQuestions = s.visitedQuestions)
    (h3 : s'.currentSectionIndex = s.currentSectionIndex)
    (h4 : s'.currentQuestionIndex = s.currentQuestionIndex)
    (hcv : CV t s) : CV t s' := by
  intro q hq
  rw [h2]
  exact hcv q ((getCurrentQuestion_congr t s s' h3 h4).symm.trans hq)

/-- `handleSubmit` leaves answers, visited and position alone. -/
theorem frame_handleSubmit (e : Nat) (ok : Bool) (t : Test) (w : World) :
    (handleSubmit e ok t w).state.answers = w.state.answers ∧
    (handleSubmit e ok t w).state.visitedQuestions = w.state.visitedQuestions ∧
    (handleSubmit e ok t w).state.currentSectionIndex =
      w.state.currentSectionIndex ∧
    (handleSubmit e ok t w).state.currentQuestionIndex =
      w.state.currentQuestionIndex := by
  unfold handleSubmit
  repeat' split <;> try simp_all

/-- The expiry handler leaves answers, visited and position alone. -/
theorem frame_handleAutoSubmitF (e : Nat) (ok : Bool) (t : Test) (w : World) :
    (handleAutoSubmitF e ok t w).1.state.answers = w.state.answers ∧
    (handleAutoSubmitF e ok t w).1.state.visitedQuestions =
      w.state.visitedQuestions ∧
    (handleAutoSubmitF e ok t w).1.state.currentSectionIndex =
      w.state.currentSectionIndex ∧
    (handleAutoSubmitF e ok t w).1.state.currentQuestionIndex =
      w.state.currentQuestionIndex := by
  simp only [handleAutoSubmitF, selectFirstCoding]
  repeat' split <;> try simp_all [frame_handleSubmit, handleSubmit]

/-- The violation-effect body leaves answers, visited and position
alone. -/
theorem frame_autoSubmitTestF (e : Nat) (ok : Bool) (t : Test) (w : World) :
    (autoSubmitTestF e ok t w).1.state.answers = w.state.answers ∧
    (autoSubmitTestF e ok t w).1.state.visitedQuestions =
      w.state.visitedQuestions ∧
    (autoSubmitTestF e ok t w).1.state.currentSectionIndex =
      w.state.currentSectionIndex ∧
    (autoSubmitTestF e ok t w).1.state.currentQuestionIndex =
      w.state.currentQuestionIndex := by
  simp only [autoSubmitTestF, selectFirstCoding]
  repeat' split <;> try simp_all


/-- The inductive invariant for C9: answered-implies-visited, the
current question is visited once the session is active, and while still
on the instructions screen (of a session started without a checkpoint)
nothing has been answered, no checkpoint exists, and the question index
is still 0. -/
def Inv9 (t : Test) (w : World) : Prop :=
  AV w.state ∧
  (w.state.showInstructions = false → CV t w.state) ∧
  (w.state.showInstructions = true →
    w.state.answers = [] ∧ w.checkpoint = none ∧
    w.state.currentQuestionIndex = 0)

/-- Every event preserves the C9 invariant. -/
theorem step_Inv9 (t : Test) (o : Op) (w : World) (h : Inv9 t w) :
    Inv9 t (step t o w) := by
  obtain ⟨hav, hcv, hin⟩ := h
  by_cases hsi : w.state.showInstructions = true
  · obtain ⟨ha, hcp, hq0⟩ := hin hsi
    cases o with
    | setAgree b =>
        have hstep : step t (Op.setAgree b) w =
            { w with state := { w.state with agreedToTerms := b } } := by
          simp [step, stepF, instructionsView, hsi, onState]
        rw [hstep]
        exact ⟨fun p hp => hav p hp,
          fun hc => absurd hc (by simp [hsi]),
          fun _ => ⟨ha, hcp, hq0⟩⟩
    | start =>
        have hstep : step t Op.start w = onState (handleStartTest t) w := by
          simp [step, stepF, instructionsView, hsi]
        rw [hstep]
        have hx := AVCV_handleStartTest t w.state ha hq0 hsi
        refine ⟨hx.1, hx.2, fun hc => ?_⟩
        rcases handleStartTest_cases t w.state with he | he
        · have hid : onState (handleStartTest t) w = w := by
            simp [onState, he]
          rw [hid]
          exact ⟨ha, hcp, hq0⟩
        · exfalso
          have : (handleStartTest t w.state).showInstructions = true := hc
          rw [he] at this
          cases this
    | restore =>
        have hstep : step t Op.restore w = w := by
          simp [step, stepF, restoreEffect, hsi, hcp]
        rw [hstep]
        exact ⟨hav, hcv, hin⟩
    | select ans =>
        have hno : step t (Op.select ans) w = w := by
          simp [step, stepF, mcqView, hsi]
        rw [hno]; exact ⟨hav, hcv, hin⟩
    | clear =>
        have hno : step t Op.clear w = w := by
          simp [step, stepF, mcqView, hsi]
        rw [hno]; exact ⟨hav, hcv, hin⟩
    | reviewAndNext =>
        have hno : step t Op.reviewAndNext w = w := by
          simp [step, stepF, mcqView, hsi]
        rw [hno]; exact ⟨hav, hcv, hin⟩
    | saveNext =>
        have hno : step t Op.saveNext w = w := by
          simp [step, stepF, mcqView, hsi]
        rw [hno]; exact ⟨hav, hcv, hin⟩
    | navigate nidx =>
        have hno : step t (Op.navigate nidx) w = w := by
          simp [step, stepF, mcqView, hsi]
        rw [hno]; exact ⟨hav, hcv, hin⟩
    | reviewAnswers =>
        have hno : step t Op.reviewAnswers w = w := by
          simp [step, stepF, mcqView, hsi]
        rw [hno]; exact ⟨hav, hcv, hin⟩
    | nextSection =>
        have hno : step t Op.nextSection w = w := by
          simp [step, stepF, mcqView, hsi]
        rw [hno]; exact ⟨hav, hcv, hin⟩
    | headerSubmit =>
        have hno : step t Op.headerSubmit w = w := by
          simp [step, stepF, mcqView, hsi]
        rw [hno]; exact ⟨hav, hcv, hin⟩
    | codingSelect cid =>
        have hno : step t (Op.codingSelect cid) w = w := by
          simp [step, stepF, codingView, hsi]
        rw [hno]; exact ⟨hav, hcv, hin⟩
    | codingSubmitBtn =>
        have hno : step t Op.codingSubmitBtn w = w := by
          simp [step, stepF, codingView, hsi]
        rw [hno]; exact ⟨hav, hcv, hin⟩
    | codingRecord sid score =>
        have hno : step t (Op.codingRecord sid score) w = w := by
          simp [step, stepF, codingView, hsi]
        rw [hno]; exact ⟨hav, hcv, hin⟩
    | cancelSubmit =>
        have hno : step t Op.cancelSubmit w = w := by
          simp [step, stepF, mcqView, hsi]
        rw [hno]; exact ⟨hav, hcv, hin⟩
    | confirmSubmit e ok =>
        have hno : step t (Op.confirmSubmit e ok) w = w := by
          simp [step, stepF, mcqView, hsi]
        rw [hno]; exact ⟨hav, hcv, hin⟩
    | tick e ok =>
        have hno : step t (Op.tick e ok) w = w := by
          simp [step, stepF, timerTick, hsi]
        rw [hno]; exact ⟨hav, hcv, hin⟩
    | hide e ok =>
        have hno : step t (Op.hide e ok) w = w := by
          simp [step, stepF, violationEventF, hsi]
        rw [hno]; exact ⟨hav, hcv, hin⟩
    | violRecheck e ok =>
        have hno : step t (Op.violRecheck e ok) w = w := by
          simp [step, stepF, violationRecheckF, violationGuard, hsi]
        rw [hno]; exact ⟨hav, hcv, hin⟩
    | unload startMs =>
        have hno : step t (Op.unload startMs) w = w := by
          simp [step, stepF, handleBeforeUnload, hsi]
        rw [hno]; exact ⟨hav, hcv, hin⟩
  · have hf : w.state.showInstructions = false := by
      cases hx : w.state.showInstructions with
      | false => rfl
      | true => exact absurd hx hsi
    have hoff := step_showInstructions_off t o w hf
    have hcv2 := hcv hf
    suffices hsuf : AV (step t o w).state ∧ CV t (step t o w).state by
      exact ⟨hsuf.1, fun _ => hsuf.2, fun hc => absurd hc (by simp [hoff])⟩
    cases o with
    | setAgree b =>
        have hno : step t (Op.setAgree b) w = w := by
          simp [step, stepF, instructionsView, hf]
        rw [hno]; exact ⟨hav, hcv2⟩
    | start =>
        have hno : step t Op.start w = w := by
          simp [step, stepF, instructionsView, hf]
        rw [hno]; exact ⟨hav, hcv2⟩
    | select ans =>
        simp only [step, stepF]
        split
        · split
          · rename_i q hq
            exact AVCV_handleAnswerSelect t w.state ans q hq hav hcv2
          · exact ⟨hav, hcv2⟩
        · exact ⟨hav, hcv2⟩
    | clear =>
        simp only [step, stepF]
        split
        · exact AVCV_handleClearResponse t w.state hav hcv2
        · exact ⟨hav, hcv2⟩
    | reviewAndNext =>
        simp only [step, stepF]
        split
        · exact AVCV_handleMarkForReviewAndNext t w.state hav hcv2
        · exact ⟨hav, hcv2⟩
    | saveNext =>
        simp only [step, stepF]
        split
        · exact AVCV_handleSaveAndNext t w.state hav hcv2
        · exact ⟨hav, hcv2⟩
    | navigate nidx =>
        simp only [step, stepF]
        split
        · exact AVCV_handleNavigateToQuestion t nidx w.state hav hcv2
        · exact ⟨hav, hcv2⟩
    | reviewAnswers =>
        simp only [step, stepF]
        split
        · exact ⟨fun p hp => hav p hp, CV_of_fields t w.state _ rfl rfl rfl hcv2⟩
        · exact ⟨hav, hcv2⟩
    | nextSection =>
        simp only [step, stepF]
        split
        · exact AVCV_handleNextSection t w.state hav hcv2
        · exact ⟨hav, hcv2⟩
    | headerSubmit =>
        simp only [step, stepF]
        split
        · exact AVCV_handleMcqHeaderSubmit t w.state hav hcv2
        · exact ⟨hav, hcv2⟩
    | codingSelect cid =>
        simp only [step, stepF]
        split
        · exact ⟨fun p hp => hav p hp, CV_of_fields t w.state _ rfl rfl rfl hcv2⟩
        · exact ⟨hav, hcv2⟩
    | codingSubmitBtn =>
        simp only [step, stepF]
        split
        · exact ⟨fun p hp => hav p hp, CV_of_fields t w.state _ rfl rfl rfl hcv2⟩
        · exact ⟨hav, hcv2⟩
    | codingRecord sid score =>
        simp only [step, stepF]
        split
        · exact ⟨fun p hp => hav p hp, CV_of_fields t w.state _ rfl rfl rfl hcv2⟩
        · exact ⟨hav, hcv2⟩
    | cancelSubmit =>
        simp only [step, stepF]
        split
        · exact ⟨fun p hp => hav p hp, CV_of_fields t w.state _ rfl rfl rfl hcv2⟩
        · exact ⟨hav, hcv2⟩
    | confirmSubmit e ok =>
        simp only [step, stepF]
        split
        · have hfr := frame_handleSubmit e ok t w
          exact ⟨AV_of_fields w.state _ hfr.1 hfr.2.1 hav,
            CV_of_fields t w.state _ hfr.2.1 hfr.2.2.1 hfr.2.2.2 hcv2⟩
        · exact ⟨hav, hcv2⟩
    | tick e ok =>
        simp only [step, stepF, timerTick]
        split
        · rename_i hx
          rw [hf] at hx
          cases hx
        · split
          · have hfr := frame_handleAutoSubmitF e ok t w
            exact ⟨AV_of_fields w.state _ (by simp [hfr.1]) (by simp [hfr.2.1]) hav,
              CV_of_fields t w.state _ (by simp [hfr.2.1]) (by simp [hfr.2.2.1])
                (by simp [hfr.2.2.2]) hcv2⟩
          · exact ⟨fun p hp => hav p hp, CV_of_fields t w.state _ rfl rfl rfl hcv2⟩
    | hide e ok =>
        simp only [step, stepF, violationEventF]
        split
        · rename_i hx
          rw [hf] at hx
          cases hx
        · split
          · have hfr := frame_autoSubmitTestF e ok t
              { w with state := { w.state with violations := w.state.violations + 1 } }
            exact ⟨AV_of_fields w.state _ (by simpa using hfr.1) (by simpa using hfr.2.1) hav,
              CV_of_fields t w.state _ (by simpa using hfr.2.1) (by simpa using hfr.2.2.1)
                (by simpa using hfr.2.2.2) hcv2⟩
          · exact ⟨fun p hp => hav p hp, CV_of_fields t w.state _ rfl rfl rfl hcv2⟩
    | violRecheck e ok =>
        simp only [step, stepF, violationRecheckF]
        split
        · have hfr := frame_autoSubmitTestF e ok t w
          exact ⟨AV_of_fields w.state _ hfr.1 hfr.2.1 hav,
            CV_of_fields t w.state _ hfr.2.1 hfr.2.2.1 hfr.2.2.2 hcv2⟩
        · exact ⟨hav, hcv2⟩
    | unload startMs =>
        simp only [step, stepF, handleBeforeUnload]
        split
        · exact ⟨fun p hp => hav p hp, CV_of_fields t w.state _ rfl rfl rfl hcv2⟩
        · exact ⟨hav, hcv2⟩
    | restore =>
        have hno : step t Op.restore w = w := by
          simp [step, stepF, restoreEffect, hf]
        rw [hno]; exact ⟨hav, hcv2⟩


/-- Trace-level preservation of the C9 invariant. -/
theorem run_Inv9 (t : Test) (ops : List Op) (w : World) (h : Inv9 t w) :
    Inv9 t (run t ops w) := by
  induction ops generalizing w with
  | nil => exact h
  | cons o os ih => exact ih (step t o w) (step_Inv9 t o w h)

/-- C9 amended.  In every session bootstrapped without a restored
checkpoint, every reachable state keeps each answered question id inside
the visited set: the bootstrap establishes the invariant and every
operation preserves it. -/
theorem answers_visited_invariant (t : Test) (ops : List Op) :
    answersVisitedInvB (run t ops (initWorld t none)).state = true := by
  have h0 : Inv9 t (initWorld t none) :=
    ⟨fun p hp => absurd hp (List.not_mem_nil p),
     fun hc => by simp [initWorld, initialState] at hc,
     fun _ => ⟨rfl, rfl, rfl⟩⟩
  exact (answersVisitedInvB_iff _).mpr (run_Inv9 t ops _ h0).1

/-- C9 counterexample.  Restoring a legitimate checkpoint (q2 answered
and visited in the interrupted session) and then starting the test
replaces the visited map with just the first question, leaving the
restored answer for q2 with no visited entry — the claimed invariant is
false in this reachable state. -/
theorem answers_visited_counterexample :
    answersVisitedInvB (run tFlat [Op.restore, Op.setAgree true, Op.start]
      (initWorld tFlat (some cpEx))).state = false ∧
    (run tFlat [Op.restore, Op.setAgree true, Op.start]
      (initWorld tFlat (some cpEx))).state.answers.lookup "q2" = some "A" ∧
    getB (run tFlat [Op.restore, Op.setAgree true, Op.start]
      (initWorld tFlat (some cpEx))).state.visitedQuestions "q2" = false := by
  decide

end Plantex
